/-
Verification of the idn-area-etl core: the ground-truth reference index
(ground_truth.py), the structural validator (validator.py) and the
normalization engine (normalizer.py), with the fuzzy-matching primitives
of utils.py.

Python strings are Lean Strings; float scores and thresholds are exact
rationals (Rat); Python dicts are association lists where insertion
prepends, so that lookup of the first matching key gives the
last-write-wins semantics of dict assignment; CSV rows (dict[str, str])
are association lists of column name to value with Python's
row.get(key, "") defaulting.
-/
import Mathlib

set_option maxHeartbeats 1000000

namespace IdnAreaEtl

/-- Area type tag (config.py: `Area = Literal[...]`). -/
inductive Area where
  | province
  | regency
  | district
  | village
  | island
deriving DecidableEq

/-- How Python renders the tag in f-strings. -/
def Area.toStr : Area → String
  | .province => "province"
  | .regency => "regency"
  | .district => "district"
  | .village => "village"
  | .island => "island"

/-! ### Rows (dict[str, str]) -/

/-- A CSV row: association list of column name to value (unique keys). -/
abbrev Row := List (String × String)

/-- Python `row.get(key, "")`. -/
def rowGet (row : Row) (k : String) : String :=
  match row.find? (fun p => p.1 = k) with
  | some p => p.2
  | none => ""

/-- Python `row[key] = v` on a dict with unique keys: replace in place,
or append when the key is absent. -/
def rowSet (row : Row) (k : String) (v : String) : Row :=
  if row.any (fun p => p.1 = k) then
    row.map (fun p => if p.1 = k then (k, v) else p)
  else row ++ [(k, v)]

/-! ### Fuzzy matching primitives (utils.py, over rapidfuzz fuzz.ratio) -/

/-- Python `s.lower()` (ASCII data in this domain). -/
def pyLower (s : String) : String := String.mk (s.data.map Char.toLower)

/-- Longest common subsequence length, fuelled so that every recursion is
structural (the fuel `as.length + bs.length` always suffices). -/
def lcsLenF : Nat → List Char → List Char → Nat
  | 0, _, _ => 0
  | _ + 1, [], _ => 0
  | _ + 1, _ :: _, [] => 0
  | f + 1, a :: as, b :: bs =>
    if a = b then 1 + lcsLenF f as bs
    else max (lcsLenF f (a :: as) bs) (lcsLenF f as (b :: bs))

def lcsLen (as bs : List Char) : Nat := lcsLenF (as.length + bs.length) as bs

/-- rapidfuzz `fuzz.ratio`: normalized Indel similarity in [0, 100].
indel distance = len1 + len2 - 2 * LCS, so the similarity is
200 * LCS / (len1 + len2); two empty strings score 100. -/
def ratio (a b : String) : Rat :=
  let la := a.data.length
  let lb := b.data.length
  if la + lb = 0 then 100
  else (200 * (lcsLen a.data b.data : Rat)) / ((la : Rat) + (lb : Rat))

/-- utils.MatchCandidate. -/
structure MatchCandidate where
  value : String
  score : Rat
  key : Option String := none
deriving DecidableEq

/-- Insert into a list sorted by descending score. -/
def insertByScoreDesc (x : Nat × Rat) : List (Nat × Rat) → List (Nat × Rat)
  | [] => [x]
  | y :: ys => if x.2 ≤ y.2 then y :: insertByScoreDesc x ys else x :: y :: ys

/-- Sort by descending score (rapidfuzz returns matches best first). -/
def sortByScoreDesc : List (Nat × Rat) → List (Nat × Rat)
  | [] => []
  | x :: xs => insertByScoreDesc x (sortByScoreDesc xs)

/-- utils.fuzzy_search_top_n: score every choice against the lowercased
query with fuzz.ratio, keep scores at or above the threshold, return at
most `n` results sorted by descending score, carrying the original value
and the corresponding key. Empty query or empty choices yield []. -/
def fuzzy_search_top_n (query : String) (choices : List String) (n : Nat)
    (threshold : Rat) (keys : Option (List String)) : List MatchCandidate :=
  if query = "" ∨ choices = [] then []
  else
    let scored := choices.enum.map (fun p => (p.1, ratio (pyLower query) (pyLower p.2)))
    let kept := scored.filter (fun p => threshold ≤ p.2)
    let top := (sortByScoreDesc kept).take n
    top.map (fun p =>
      { value := (choices.get? p.1).getD ""
        score := p.2
        key := match keys with
          | some ks => ks.get? p.1
          | none => none })

/-! ### Ground truth records and indexes (ground_truth.py) -/

/-- ground_truth.AreaRecord. -/
structure AreaRecord where
  code : String
  name : String
  parent_code : String := ""
deriving DecidableEq

/-- ground_truth.IslandRecord. -/
structure IslandRecord where
  code : String
  name : String
  regency_code : String := ""
  coordinate : String := ""
  is_populated : String := ""
  is_outermost_small : String := ""
deriving DecidableEq

/-- ground_truth.AreaIndex: records in insertion order, the code-to-record
dict (newest entry first, so that the first hit is the last write), and
the parallel name/code sequences used for fuzzy search. -/
structure AreaIndex where
  area : Area
  records : List AreaRecord := []
  code_to_record : List (String × AreaRecord) := []
  names : List String := []
  codes : List String := []
deriving DecidableEq

def AreaIndex.add (idx : AreaIndex) (r : AreaRecord) : AreaIndex :=
  { idx with
    records := idx.records ++ [r]
    code_to_record := (r.code, r) :: idx.code_to_record
    names := idx.names ++ [r.name]
    codes := idx.codes ++ [r.code] }

def AreaIndex.get_by_code (idx : AreaIndex) (code : String) : Option AreaRecord :=
  (idx.code_to_record.find? (fun p => p.1 = code)).map Prod.snd

def AreaIndex.search_by_name (idx : AreaIndex) (name : String) (n : Nat)
    (threshold : Rat) : List MatchCandidate :=
  fuzzy_search_top_n name idx.names n threshold (some idx.codes)

def AreaIndex.has_code (idx : AreaIndex) (code : String) : Bool :=
  idx.code_to_record.any (fun p => p.1 = code)

def AreaIndex.length (idx : AreaIndex) : Nat := idx.records.length

/-- ground_truth.IslandIndex (same shape over IslandRecord). -/
structure IslandIndex where
  records : List IslandRecord := []
  code_to_record : List (String × IslandRecord) := []
  names : List String := []
  codes : List String := []
deriving DecidableEq

def IslandIndex.add (idx : IslandIndex) (r : IslandRecord) : IslandIndex :=
  { idx with
    records := idx.records ++ [r]
    code_to_record := (r.code, r) :: idx.code_to_record
    names := idx.names ++ [r.name]
    codes := idx.codes ++ [r.code] }

def IslandIndex.get_by_code (idx : IslandIndex) (code : String) : Option IslandRecord :=
  (idx.code_to_record.find? (fun p => p.1 = code)).map Prod.snd

def IslandIndex.search_by_name (idx : IslandIndex) (name : String) (n : Nat)
    (threshold : Rat) : List MatchCandidate :=
  fuzzy_search_top_n name idx.names n threshold (some idx.codes)

def IslandIndex.has_code (idx : IslandIndex) (code : String) : Bool :=
  idx.code_to_record.any (fun p => p.1 = code)

def IslandIndex.length (idx : IslandIndex) : Nat := idx.records.length

/-! ### Hierarchy maps: Python dict[str, list[...]] -/

/-- `d.get(k, [])`. -/
def dictGetList (d : List (String × List α)) (k : String) : List α :=
  match d.find? (fun p => p.1 = k) with
  | some p => p.2
  | none => []

/-- `if k not in d: d[k] = []` then `d[k].append(v)`. -/
def dictAppendList (d : List (String × List α)) (k : String) (v : α) :
    List (String × List α) :=
  if d.any (fun p => p.1 = k) then
    d.map (fun p => if p.1 = k then (p.1, p.2 ++ [v]) else p)
  else d ++ [(k, [v])]

/-- ground_truth.GroundTruthIndex: per-area indexes plus the
parent-to-children hierarchy maps. -/
structure GroundTruthIndex where
  provinces : AreaIndex := { area := .province }
  regencies : AreaIndex := { area := .regency }
  districts : AreaIndex := { area := .district }
  villages : AreaIndex := { area := .village }
  islands : IslandIndex := {}
  regencies_by_province : List (String × List AreaRecord) := []
  districts_by_regency : List (String × List AreaRecord) := []
  villages_by_district : List (String × List AreaRecord) := []
  islands_by_regency : List (String × List IslandRecord) := []
deriving DecidableEq

def GroundTruthIndex.empty : GroundTruthIndex := {}

/-- GroundTruthIndex._get_parent_field. -/
def parent_field_of : Area → String
  | .province => ""
  | .regency => "province_code"
  | .district => "regency_code"
  | .village => "district_code"
  | .island => "regency_code"

/-- GroundTruthIndex.add_area_record: insert into the area's index and,
when the record carries a non-empty parent code and the area has a
hierarchy map, append it to that parent's children list. The Python
method raises ValueError for `area == "island"` (islands have no area
index); that branch is unreachable in the pipeline and is modelled as a
no-op. -/
def GroundTruthIndex.add_area_record (gt : GroundTruthIndex) (area : Area)
    (r : AreaRecord) : GroundTruthIndex :=
  match area with
  | .province => { gt with provinces := gt.provinces.add r }
  | .regency =>
    { gt with
      regencies := gt.regencies.add r
      regencies_by_province :=
        if r.parent_code ≠ "" then dictAppendList gt.regencies_by_province r.parent_code r
        else gt.regencies_by_province }
  | .district =>
    { gt with
      districts := gt.districts.add r
      districts_by_regency :=
        if r.parent_code ≠ "" then dictAppendList gt.districts_by_regency r.parent_code r
        else gt.districts_by_regency }
  | .village =>
    { gt with
      villages := gt.villages.add r
      villages_by_district :=
        if r.parent_code ≠ "" then dictAppendList gt.villages_by_district r.parent_code r
        else gt.villages_by_district }
  | .island => gt

/-- GroundTruthIndex.add_island_record. -/
def GroundTruthIndex.add_island_record (gt : GroundTruthIndex)
    (r : IslandRecord) : GroundTruthIndex :=
  { gt with
    islands := gt.islands.add r
    islands_by_regency :=
      if r.regency_code ≠ "" then dictAppendList gt.islands_by_regency r.regency_code r
      else gt.islands_by_regency }

def GroundTruthIndex.get_regencies_for_province (gt : GroundTruthIndex)
    (province_code : String) : List AreaRecord :=
  dictGetList gt.regencies_by_province province_code

def GroundTruthIndex.get_districts_for_regency (gt : GroundTruthIndex)
    (regency_code : String) : List AreaRecord :=
  dictGetList gt.districts_by_regency regency_code

def GroundTruthIndex.get_villages_for_district (gt : GroundTruthIndex)
    (district_code : String) : List AreaRecord :=
  dictGetList gt.villages_by_district district_code

def GroundTruthIndex.get_islands_for_regency (gt : GroundTruthIndex)
    (regency_code : String) : List IslandRecord :=
  dictGetList gt.islands_by_regency regency_code

/-- GroundTruthIndex._get_area_index followed by search_by_name: the
full-index search an empty or childless parent falls back to. Islands
are dispatched before this point in the Python code; the island line
here mirrors the final `if area == "island"` branch. -/
def GroundTruthIndex.full_index_search (gt : GroundTruthIndex) (name : String)
    (area : Area) (n : Nat) (threshold : Rat) : List MatchCandidate :=
  match area with
  | .island => gt.islands.search_by_name name n threshold
  | .province => gt.provinces.search_by_name name n threshold
  | .regency => gt.regencies.search_by_name name n threshold
  | .district => gt.districts.search_by_name name n threshold
  | .village => gt.villages.search_by_name name n threshold

/-- GroundTruthIndex.search_name_in_context. `if parent_code:` is Python
truthiness: None and "" both skip the scoped branch. For islands with a
truthy parent the scoped search is returned unconditionally; for the
other area types the children are searched only when the parent has
indexed children, otherwise the full index is searched. -/
def GroundTruthIndex.search_name_in_context (gt : GroundTruthIndex)
    (name : String) (area : Area) (parent_code : Option String) (n : Nat)
    (threshold : Rat) : List MatchCandidate :=
  let pc := parent_code.getD ""
  if pc = "" then gt.full_index_search name area n threshold
  else
    match area with
    | .island =>
      let islands := gt.get_islands_for_regency pc
      fuzzy_search_top_n name (islands.map IslandRecord.name) n threshold
        (some (islands.map IslandRecord.code))
    | _ =>
      let records : List AreaRecord :=
        match area with
        | .regency => gt.get_regencies_for_province pc
        | .district => gt.get_districts_for_regency pc
        | .village => gt.get_villages_for_district pc
        | _ => []
      if records ≠ [] then
        fuzzy_search_top_n name (records.map AreaRecord.name) n threshold
          (some (records.map AreaRecord.code))
      else gt.full_index_search name area n threshold

/-! ### Loading reference data from a directory (ground_truth.py)

The filesystem is external: a reference file either opens and parses to a
header list and rows, or raises IOError/ValueError when opened. -/

/-- One CSV file of the reference directory. -/
inductive FileContent where
  | readable (headers : List String) (rows : List Row)
  | unreadable
deriving DecidableEq

/-- The reference directory handed to load_from_directory. -/
structure Directory where
  isDir : Bool
  path : String
  files : List FileContent

/-- GroundTruthIndex._detect_area_type_from_headers: header-signature
dispatch, most specific parent-field combination first. The
`except (IOError, ValueError): pass` makes an unreadable file
indistinguishable from an unrecognized one (None). -/
def detect_area_type_from_headers : FileContent → Option Area
  | .unreadable => none
  | .readable headers _ =>
    if headers = [] then none
    else if "regency_code" ∈ headers ∧ ("coordinate" ∈ headers ∨ "is_populated" ∈ headers) then
      some .island
    else if "district_code" ∈ headers then some .village
    else if "regency_code" ∈ headers then some .district
    else if "province_code" ∈ headers then some .regency
    else if "code" ∈ headers ∧ "name" ∈ headers then some .province
    else none

/-- GroundTruthIndex._load_area_csv body for one row. -/
def areaRecordOfRow (area : Area) (row : Row) : AreaRecord :=
  { code := rowGet row "code"
    name := rowGet row "name"
    parent_code := if parent_field_of area ≠ "" then rowGet row (parent_field_of area) else "" }

/-- GroundTruthIndex._load_island_csv body for one row. -/
def islandRecordOfRow (row : Row) : IslandRecord :=
  { code := rowGet row "code"
    name := rowGet row "name"
    regency_code := rowGet row "regency_code"
    coordinate := rowGet row "coordinate"
    is_populated := rowGet row "is_populated"
    is_outermost_small := rowGet row "is_outermost_small" }

/-- Load one detected file into the index; undetected files are skipped. -/
def loadFile (gt : GroundTruthIndex) (fc : FileContent) : GroundTruthIndex :=
  match detect_area_type_from_headers fc with
  | some .island =>
    match fc with
    | .readable _ rows => rows.foldl (fun g row => g.add_island_record (islandRecordOfRow row)) gt
    | .unreadable => gt
  | some area =>
    match fc with
    | .readable _ rows =>
      rows.foldl (fun g row => g.add_area_record area (areaRecordOfRow area row)) gt
    | .unreadable => gt
  | none => gt

/-- GroundTruthIndex.load_from_directory: a missing directory raises
ValueError; otherwise every CSV file is detected and loaded in turn. -/
def GroundTruthIndex.load_from_directory (gt : GroundTruthIndex)
    (d : Directory) : Except String GroundTruthIndex :=
  if ¬ d.isDir then Except.error ("Directory does not exist: " ++ d.path)
  else Except.ok (d.files.foldl loadFile gt)

/-! ### Normalization engine (normalizer.py) -/

/-- normalizer.NormalizationStatus. -/
inductive NormalizationStatus where
  | valid
  | corrected
  | ambiguous
  | not_found
deriving DecidableEq

/-- normalizer.NormalizationSuggestion. -/
structure NormalizationSuggestion where
  original : String
  suggested : String
  confidence : Rat
  reason : String
deriving DecidableEq

/-- normalizer.RowNormalization. -/
structure RowNormalization where
  row_number : Nat
  original : Row
  corrected : Row
  status : NormalizationStatus
  suggestions : List NormalizationSuggestion := []
deriving DecidableEq

/-- normalizer.Normalizer (ground truth plus the two thresholds). -/
structure Normalizer where
  ground_truth : GroundTruthIndex
  confidence_threshold : Rat := 80
  ambiguity_threshold : Rat := 5

/-- How Python renders an Option key in an f-string (None prints as "None"). -/
def optKeyStr : Option String → String
  | some s => s
  | none => "None"

/-- Normalizer._get_record_by_code: island falls through to None. -/
def Normalizer.get_record_by_code (nz : Normalizer) (area : Area)
    (code : String) : Option AreaRecord :=
  match area with
  | .province => nz.ground_truth.provinces.get_by_code code
  | .regency => nz.ground_truth.regencies.get_by_code code
  | .district => nz.ground_truth.districts.get_by_code code
  | .village => nz.ground_truth.villages.get_by_code code
  | .island => none

/-- Normalizer._evaluate_matches: ambiguity check on the top two scores,
then resolution of the top candidate by its key. -/
def Normalizer.evaluate_matches (nz : Normalizer) (row : Row) (row_num : Nat)
    (name : String) (corrected : Row) (ms : List MatchCandidate)
    (area : Area) : RowNormalization :=
  match ms with
  | [] => { row_number := row_num, original := row, corrected := corrected,
            status := .not_found }
  | top :: rest =>
    let ambiguous : Bool :=
      match rest with
      | second :: _ => decide (top.score - second.score < nz.ambiguity_threshold)
      | [] => false
    if ambiguous then
      { row_number := row_num, original := row, corrected := corrected,
        status := .ambiguous
        suggestions := ms.map (fun m =>
          { original := name, suggested := m.value, confidence := m.score
            reason := "Fuzzy match candidate (code: " ++ optKeyStr m.key ++ ")" }) }
    else
      match nz.get_record_by_code area ((top.key).getD "") with
      | some record =>
        let suggestions : List NormalizationSuggestion :=
          [{ original := name, suggested := record.name, confidence := top.score
             reason := "Fuzzy matched to " ++ area.toStr ++ " code " ++ record.code }]
        let corrected1 := rowSet (rowSet corrected "name" record.name) "code" record.code
        let corrected2 :=
          if record.parent_code ≠ "" then
            if parent_field_of area ≠ "" then
              rowSet corrected1 (parent_field_of area) record.parent_code
            else corrected1
          else corrected1
        { row_number := row_num, original := row, corrected := corrected2,
          status := .corrected, suggestions := suggestions }
      | none =>
        { row_number := row_num, original := row, corrected := corrected,
          status := .not_found }

/-- Normalizer._normalize_by_name: scoped fuzzy search with n = 3 and the
confidence threshold as cutoff; no matches means not_found. -/
def Normalizer.normalize_by_name (nz : Normalizer) (row : Row) (row_num : Nat)
    (name : String) (area : Area) (corrected : Row)
    (parent_code : Option String) : RowNormalization :=
  let ms := nz.ground_truth.search_name_in_context name area parent_code 3
    nz.confidence_threshold
  if ms = [] then
    { row_number := row_num, original := row, corrected := corrected,
      status := .not_found }
  else nz.evaluate_matches row row_num name corrected ms area

/-- Normalizer._normalize_island_by_name. -/
def Normalizer.normalize_island_by_name (nz : Normalizer) (row : Row)
    (row_num : Nat) (name : String) (corrected : Row)
    (regency_code : String) : RowNormalization :=
  let ms := nz.ground_truth.search_name_in_context name .island
    (some regency_code) 3 nz.confidence_threshold
  match ms with
  | [] => { row_number := row_num, original := row, corrected := corrected,
            status := .not_found }
  | top :: rest =>
    let ambiguous : Bool :=
      match rest with
      | second :: _ => decide (top.score - second.score < nz.ambiguity_threshold)
      | [] => false
    if ambiguous then
      { row_number := row_num, original := row, corrected := corrected,
        status := .ambiguous
        suggestions := ms.map (fun m =>
          { original := name, suggested := m.value, confidence := m.score
            reason := "Fuzzy match candidate (code: " ++ optKeyStr m.key ++ ")" }) }
    else
      match nz.ground_truth.islands.get_by_code ((top.key).getD "") with
      | some record =>
        let suggestions : List NormalizationSuggestion :=
          [{ original := name, suggested := record.name, confidence := top.score
             reason := "Fuzzy matched to island code " ++ record.code }]
        let corrected1 := rowSet (rowSet corrected "name" record.name) "code" record.code
        let corrected2 :=
          if record.regency_code ≠ "" then rowSet corrected1 "regency_code" record.regency_code
          else corrected1
        let corrected3 :=
          if record.coordinate ≠ "" then rowSet corrected2 "coordinate" record.coordinate
          else corrected2
        let corrected4 :=
          if record.is_populated ≠ "" then rowSet corrected3 "is_populated" record.is_populated
          else corrected3
        let corrected5 :=
          if record.is_outermost_small ≠ "" then
            rowSet corrected4 "is_outermost_small" record.is_outermost_small
          else corrected4
        { row_number := row_num, original := row, corrected := corrected5,
          status := .corrected, suggestions := suggestions }
      | none =>
        { row_number := row_num, original := row, corrected := corrected,
          status := .not_found }

/-- Normalizer.normalize_province. -/
def Normalizer.normalize_province (nz : Normalizer) (row : Row)
    (row_num : Nat) : RowNormalization :=
  let code := rowGet row "code"
  let name := rowGet row "name"
  let corrected := row
  match nz.ground_truth.provinces.get_by_code code with
  | some record =>
    if record.name = name then
      { row_number := row_num, original := row, corrected := corrected,
        status := .valid }
    else
      { row_number := row_num, original := row
        corrected := rowSet corrected "name" record.name
        status := .corrected
        suggestions := [{ original := name, suggested := record.name, confidence := 100
                          reason := "Name corrected to match code " ++ code ++ " in ground truth" }] }
  | none => nz.normalize_by_name row row_num name .province corrected none

/-- Normalizer.normalize_regency. -/
def Normalizer.normalize_regency (nz : Normalizer) (row : Row)
    (row_num : Nat) : RowNormalization :=
  let code := rowGet row "code"
  let province_code := rowGet row "province_code"
  let name := rowGet row "name"
  let corrected := row
  match nz.ground_truth.regencies.get_by_code code with
  | some record =>
    let suggestions1 : List NormalizationSuggestion :=
      if record.name ≠ name then
        [{ original := name, suggested := record.name, confidence := 100
           reason := "Name corrected to match code " ++ code ++ " in ground truth" }]
      else []
    let corrected1 := if record.name ≠ name then rowSet corrected "name" record.name else corrected
    let suggestions2 :=
      if record.parent_code ≠ province_code then
        suggestions1 ++
          [{ original := province_code, suggested := record.parent_code, confidence := 100
             reason := "Province code corrected to match code " ++ code ++ " in ground truth" }]
      else suggestions1
    let corrected2 :=
      if record.parent_code ≠ province_code then rowSet corrected1 "province_code" record.parent_code
      else corrected1
    if suggestions2 ≠ [] then
      { row_number := row_num, original := row, corrected := corrected2,
        status := .corrected, suggestions := suggestions2 }
    else
      { row_number := row_num, original := row, corrected := corrected2,
        status := .valid }
  | none =>
    nz.normalize_by_name row row_num name .regency corrected (some province_code)

/-- Normalizer.normalize_district. -/
def Normalizer.normalize_district (nz : Normalizer) (row : Row)
    (row_num : Nat) : RowNormalization :=
  let code := rowGet row "code"
  let regency_code := rowGet row "regency_code"
  let name := rowGet row "name"
  let corrected := row
  match nz.ground_truth.districts.get_by_code code with
  | some record =>
    let suggestions1 : List NormalizationSuggestion :=
      if record.name ≠ name then
        [{ original := name, suggested := record.name, confidence := 100
           reason := "Name corrected to match code " ++ code ++ " in ground truth" }]
      else []
    let corrected1 := if record.name ≠ name then rowSet corrected "name" record.name else corrected
    let suggestions2 :=
      if record.parent_code ≠ regency_code then
        suggestions1 ++
          [{ original := regency_code, suggested := record.parent_code, confidence := 100
             reason := "Regency code corrected to match code " ++ code ++ " in ground truth" }]
      else suggestions1
    let corrected2 :=
      if record.parent_code ≠ regency_code then rowSet corrected1 "regency_code" record.parent_code
      else corrected1
    if suggestions2 ≠ [] then
      { row_number := row_num, original := row, corrected := corrected2,
        status := .corrected, suggestions := suggestions2 }
    else
      { row_number := row_num, original := row, corrected := corrected2,
        status := .valid }
  | none =>
    nz.normalize_by_name row row_num name .district corrected (some regency_code)

/-- Normalizer.normalize_village. -/
def Normalizer.normalize_village (nz : Normalizer) (row : Row)
    (row_num : Nat) : RowNormalization :=
  let code := rowGet row "code"
  let district_code := rowGet row "district_code"
  let name := rowGet row "name"
  let corrected := row
  match nz.ground_truth.villages.get_by_code code with
  | some record =>
    let suggestions1 : List NormalizationSuggestion :=
      if record.name ≠ name then
        [{ original := name, suggested := record.name, confidence := 100
           reason := "Name corrected to match code " ++ code ++ " in ground truth" }]
      else []
    let corrected1 := if record.name ≠ name then rowSet corrected "name" record.name else corrected
    let suggestions2 :=
      if record.parent_code ≠ district_code then
        suggestions1 ++
          [{ original := district_code, suggested := record.parent_code, confidence := 100
             reason := "District code corrected to match code " ++ code ++ " in ground truth" }]
      else suggestions1
    let corrected2 :=
      if record.parent_code ≠ district_code then rowSet corrected1 "district_code" record.parent_code
      else corrected1
    if suggestions2 ≠ [] then
      { row_number := row_num, original := row, corrected := corrected2,
        status := .corrected, suggestions := suggestions2 }
    else
      { row_number := row_num, original := row, corrected := corrected2,
        status := .valid }
  | none =>
    nz.normalize_by_name row row_num name .village corrected (some district_code)

/-- Normalizer.normalize_island (exact-code path; fuzzy fallback in
normalize_island_by_name). -/
def Normalizer.normalize_island (nz : Normalizer) (row : Row)
    (row_num : Nat) : RowNormalization :=
  let code := rowGet row "code"
  let regency_code := rowGet row "regency_code"
  let name := rowGet row "name"
  let corrected := row
  match nz.ground_truth.islands.get_by_code code with
  | some record =>
    let suggestions1 : List NormalizationSuggestion :=
      if record.name ≠ name then
        [{ original := name, suggested := record.name, confidence := 100
           reason := "Name corrected to match code " ++ code ++ " in ground truth" }]
      else []
    let corrected1 := if record.name ≠ name then rowSet corrected "name" record.name else corrected
    let suggestions2 :=
      if record.regency_code ≠ regency_code then
        suggestions1 ++
          [{ original := regency_code, suggested := record.regency_code, confidence := 100
             reason := "Regency code corrected to match code " ++ code ++ " in ground truth" }]
      else suggestions1
    let corrected2 :=
      if record.regency_code ≠ regency_code then rowSet corrected1 "regency_code" record.regency_code
      else corrected1
    let coordDiff := record.coordinate ≠ "" ∧ rowGet row "coordinate" ≠ record.coordinate
    let suggestions3 :=
      if coordDiff then
        suggestions2 ++
          [{ original := rowGet row "coordinate", suggested := record.coordinate, confidence := 100
             reason := "Coordinate corrected to match code " ++ code ++ " in ground truth" }]
      else suggestions2
    let corrected3 :=
      if coordDiff then rowSet corrected2 "coordinate" record.coordinate
      else corrected2
    if suggestions3 ≠ [] then
      { row_number := row_num, original := row, corrected := corrected3,
        status := .corrected, suggestions := suggestions3 }
    else
      { row_number := row_num, original := row, corrected := corrected3,
        status := .valid }
  | none => nz.normalize_island_by_name row row_num name corrected regency_code

/-- Normalizer.normalize_row: per-area dispatch. -/
def Normalizer.normalize_row (nz : Normalizer) (row : Row) (row_num : Nat)
    (area : Area) : RowNormalization :=
  match area with
  | .province => nz.normalize_province row row_num
  | .regency => nz.normalize_regency row row_num
  | .district => nz.normalize_district row row_num
  | .village => nz.normalize_village row row_num
  | .island => nz.normalize_island row row_num

/-! ### Structural validator (validator.py, patterns from utils.py) -/

/-- Python `s.strip()`. -/
def pyStrip (s : String) : String :=
  String.mk (((s.data.dropWhile Char.isWhitespace).reverse.dropWhile Char.isWhitespace).reverse)

/-- Python `s.isdigit()`: non-empty and all digits. -/
def pyIsdigit (s : String) : Bool :=
  !s.data.isEmpty && s.data.all Char.isDigit

/-- Python `s.capitalize()`. -/
def pyCapitalize (s : String) : String :=
  match s.data with
  | [] => ""
  | c :: cs => String.mk (c.toUpper :: cs.map Char.toLower)

/-- utils.RE_PROVINCE_CODE: two digits. -/
def reProvinceCode (s : String) : Bool :=
  match s.data with
  | [a, b] => a.isDigit && b.isDigit
  | _ => false

/-- utils.RE_REGENCY_CODE: NN.NN. -/
def reRegencyCode (s : String) : Bool :=
  match s.data with
  | [a, b, p, c, d] => a.isDigit && b.isDigit && p = '.' && c.isDigit && d.isDigit
  | _ => false

/-- utils.RE_DISTRICT_CODE: NN.NN.NN. -/
def reDistrictCode (s : String) : Bool :=
  match s.data with
  | [a, b, p, c, d, q, e, f] =>
    a.isDigit && b.isDigit && p = '.' && c.isDigit && d.isDigit && q = '.' &&
      e.isDigit && f.isDigit
  | _ => false

/-- utils.RE_VILLAGE_CODE: NN.NN.NN.NNNN. -/
def reVillageCode (s : String) : Bool :=
  match s.data with
  | [a, b, p, c, d, q, e, f, r, g, h, i, j] =>
    a.isDigit && b.isDigit && p = '.' && c.isDigit && d.isDigit && q = '.' &&
      e.isDigit && f.isDigit && r = '.' && g.isDigit && h.isDigit && i.isDigit && j.isDigit
  | _ => false

/-- utils.RE_ISLAND_CODE: NN.NN.NNNNN. -/
def reIslandCode (s : String) : Bool :=
  match s.data with
  | [a, b, p, c, d, q, e, f, g, h, i] =>
    a.isDigit && b.isDigit && p = '.' && c.isDigit && d.isDigit && q = '.' &&
      e.isDigit && f.isDigit && g.isDigit && h.isDigit && i.isDigit
  | _ => false

/-- Hemisphere letters of utils.RE_COORDINATE, case-insensitive. -/
def isHemiChar (c : Char) : Bool :=
  let u := c.toUpper
  u = 'N' || u = 'S' || u = 'E' || u = 'W' || u = 'U' || u = 'T' || u = 'B'

/-- One DMS block of utils.RE_COORDINATE:
digits{1,3} degree-sign digits{1,2} apostrophe digits{1,2} optional
fraction, optional double quote. Returns the rest on success. The regex
classes at each step are disjoint, so greedy matching is exact. -/
def parseDMS (cs : List Char) : Option (List Char) :=
  let deg := cs.takeWhile Char.isDigit
  let r1 := cs.dropWhile Char.isDigit
  if deg.length < 1 ∨ 3 < deg.length then none
  else
    match r1 with
    | c :: r2 =>
      if c ≠ '°' then none
      else
        let mins := r2.takeWhile Char.isDigit
        let r3 := r2.dropWhile Char.isDigit
        if mins.length < 1 ∨ 2 < mins.length then none
        else
          match r3 with
          | q :: r4 =>
            if q ≠ '\'' then none
            else
              let secs := r4.takeWhile Char.isDigit
              let r5 := r4.dropWhile Char.isDigit
              if secs.length < 1 ∨ 2 < secs.length then none
              else
                let r6 :=
                  match r5 with
                  | dot :: rest =>
                    if dot = '.' ∧ (rest.takeWhile Char.isDigit).length ≥ 1 then
                      rest.dropWhile Char.isDigit
                    else r5
                  | [] => r5
                let r7 :=
                  match r6 with
                  | qq :: rest => if qq = '"' then rest else r6
                  | [] => r6
                some r7
          | [] => none
    | [] => none

/-- Whitespace-run then hemisphere-run helper (both runs non-empty). -/
def parseSpaceHemi (cs : List Char) : Option (List Char) :=
  let sp := cs.takeWhile Char.isWhitespace
  let r1 := cs.dropWhile Char.isWhitespace
  if sp.isEmpty then none
  else
    let hs := r1.takeWhile isHemiChar
    let r2 := r1.dropWhile isHemiChar
    if hs.isEmpty then none else some r2

/-- utils.RE_COORDINATE as a whole-string matcher:
DMS ws+ hemi+ ws+ DMS ws+ hemi+ end. -/
def reCoordinate (s : String) : Bool :=
  match parseDMS s.data with
  | none => false
  | some r1 =>
    match parseSpaceHemi r1 with
    | none => false
    | some r2 =>
      let sp := r2.takeWhile Char.isWhitespace
      let r3 := r2.dropWhile Char.isWhitespace
      if sp.isEmpty then false
      else
        match parseDMS r3 with
        | none => false
        | some r4 =>
          match parseSpaceHemi r4 with
          | none => false
          | some r5 => r5.isEmpty

/-- validator.ValidationError. -/
structure ValidationError where
  row_number : Nat
  column : String
  value : String
  error_type : String
  message : String
deriving DecidableEq

/-- RowValidator._validate_not_empty. -/
def validateNotEmpty (value : String) (row_num : Nat) (column : String) :
    List ValidationError :=
  if pyStrip value = "" then
    [{ row_number := row_num, column := column, value := value
       error_type := "empty_value"
       message := pyCapitalize column ++ " cannot be empty" }]
  else []

/-- RowValidator._validate_code_length (province only). -/
def validateCodeLength (code : String) (expected_length : Nat) (row_num : Nat) :
    List ValidationError :=
  if code.data.length ≠ expected_length then
    [{ row_number := row_num, column := "code", value := code
       error_type := "invalid_code_length"
       message := "Code must be exactly " ++ toString expected_length ++
         " digits, got " ++ toString code.data.length }]
  else []

/-- RowValidator._validate_code_numeric (province only). -/
def validateCodeNumeric (code : String) (row_num : Nat) : List ValidationError :=
  if ¬ pyIsdigit code then
    [{ row_number := row_num, column := "code", value := code
       error_type := "invalid_code_format"
       message := "Code must be numeric, got " ++ code }]
  else []

/-- RowValidator._validate_code_pattern. -/
def validateCodePattern (code : String) (pat : String → Bool)
    (expected_format : String) (row_num : Nat) (column : String) :
    List ValidationError :=
  if ¬ pat code then
    [{ row_number := row_num, column := column, value := code
       error_type := "invalid_code_format"
       message := "Code must match pattern " ++ expected_format ++ ", got " ++ code }]
  else []

/-- RowValidator._validate_parent_code_prefix: the parent field must equal
the leading `parent_length` characters of the record's own code. -/
def validateParentCodePref (code : String) (parent_code : String)
    (parent_length : Nat) (row_num : Nat) (parent_column : String) :
    List ValidationError :=
  let expected := String.mk (code.data.take parent_length)
  if parent_code ≠ expected then
    [{ row_number := row_num, column := parent_column, value := parent_code
       error_type := "invalid_parent_code"
       message := "Parent code " ++ parent_code ++ " doesn't match code prefix " ++ expected }]
  else []

/-- RowValidator._validate_boolean. -/
def validateBoolean (value : String) (row_num : Nat) (column : String) :
    List ValidationError :=
  if value ≠ "0" ∧ value ≠ "1" then
    [{ row_number := row_num, column := column, value := value
       error_type := "invalid_boolean"
       message := column ++ " must be '0' or '1', got " ++ value }]
  else []

/-- ProvinceValidator.validate_row. -/
def provinceValidateRow (row : Row) (row_num : Nat) : List ValidationError :=
  let code := rowGet row "code"
  let name := rowGet row "name"
  (if pyStrip code = "" then validateNotEmpty code row_num "code"
   else validateCodeLength code 2 row_num ++ validateCodeNumeric code row_num) ++
  validateNotEmpty name row_num "name"

/-- RegencyValidator.validate_row. -/
def regencyValidateRow (row : Row) (row_num : Nat) : List ValidationError :=
  let code := rowGet row "code"
  let province_code := rowGet row "province_code"
  let name := rowGet row "name"
  (if pyStrip code = "" then validateNotEmpty code row_num "code"
   else validateCodePattern code reRegencyCode "NN.NN" row_num "code") ++
  (if pyStrip province_code = "" then validateNotEmpty province_code row_num "province_code"
   else if ¬ reProvinceCode province_code then
     validateCodePattern province_code reProvinceCode "NN" row_num "province_code"
   else if code ≠ "" ∧ reRegencyCode code then
     validateParentCodePref code province_code 2 row_num "province_code"
   else []) ++
  validateNotEmpty name row_num "name"

/-- DistrictValidator.validate_row. -/
def districtValidateRow (row : Row) (row_num : Nat) : List ValidationError :=
  let code := rowGet row "code"
  let regency_code := rowGet row "regency_code"
  let name := rowGet row "name"
  (if pyStrip code = "" then validateNotEmpty code row_num "code"
   else validateCodePattern code reDistrictCode "NN.NN.NN" row_num "code") ++
  (if pyStrip regency_code = "" then validateNotEmpty regency_code row_num "regency_code"
   else if ¬ reRegencyCode regency_code then
     validateCodePattern regency_code reRegencyCode "NN.NN" row_num "regency_code"
   else if code ≠ "" ∧ reDistrictCode code then
     validateParentCodePref code regency_code 5 row_num "regency_code"
   else []) ++
  validateNotEmpty name row_num "name"

/-- VillageValidator.validate_row. -/
def villageValidateRow (row : Row) (row_num : Nat) : List ValidationError :=
  let code := rowGet row "code"
  let district_code := rowGet row "district_code"
  let name := rowGet row "name"
  (if pyStrip code = "" then validateNotEmpty code row_num "code"
   else validateCodePattern code reVillageCode "NN.NN.NN.NNNN" row_num "code") ++
  (if pyStrip district_code = "" then validateNotEmpty district_code row_num "district_code"
   else if ¬ reDistrictCode district_code then
     validateCodePattern district_code reDistrictCode "NN.NN.NN" row_num "district_code"
   else if code ≠ "" ∧ reVillageCode code then
     validateParentCodePref code district_code 8 row_num "district_code"
   else []) ++
  validateNotEmpty name row_num "name"

/-- IslandValidator.validate_row: the island code pattern, a pattern-only
check on a non-empty regency_code (an empty one is tolerated, and no
parent-prefix comparison is ever made), the coordinate pattern, the two
boolean flags, and the name. -/
def islandValidateRow (row : Row) (row_num : Nat) : List ValidationError :=
  let code := rowGet row "code"
  let regency_code := rowGet row "regency_code"
  let coordinate := rowGet row "coordinate"
  let is_populated := rowGet row "is_populated"
  let is_outermost_small := rowGet row "is_outermost_small"
  let name := rowGet row "name"
  (if pyStrip code = "" then validateNotEmpty code row_num "code"
   else if ¬ reIslandCode code then
     [{ row_number := row_num, column := "code", value := code
        error_type := "invalid_code_format"
        message := "Island code must match pattern NN.NN.NNNNN, got " ++ code }]
   else []) ++
  (if regency_code ≠ "" then
     validateCodePattern regency_code reRegencyCode "NN.NN" row_num "regency_code"
   else []) ++
  (if pyStrip coordinate = "" then validateNotEmpty coordinate row_num "coordinate"
   else if ¬ reCoordinate coordinate then
     [{ row_number := row_num, column := "coordinate", value := coordinate
        error_type := "invalid_coordinate"
        message := "Coordinate must match the DMS pattern, got " ++ coordinate }]
   else []) ++
  validateBoolean is_populated row_num "is_populated" ++
  validateBoolean is_outermost_small row_num "is_outermost_small" ++
  validateNotEmpty name row_num "name"

/-- get_validator(area).validate_row. -/
def validateRow (area : Area) (row : Row) (row_num : Nat) : List ValidationError :=
  match area with
  | .province => provinceValidateRow row row_num
  | .regency => regencyValidateRow row row_num
  | .district => districtValidateRow row row_num
  | .village => villageValidateRow row row_num
  | .island => islandValidateRow row row_num

/-- Per-validator `expected_headers`. -/
def expectedHeaders : Area → List String
  | .province => ["code", "name"]
  | .regency => ["code", "province_code", "name"]
  | .district => ["code", "regency_code", "name"]
  | .village => ["code", "district_code", "name"]
  | .island => ["code", "regency_code", "coordinate", "is_populated",
                "is_outermost_small", "name"]

/-- RowValidator.validate_headers: order-sensitive exact equality. -/
def validate_headers (area : Area) (headers : List String) :
    Option ValidationError :=
  if headers ≠ expectedHeaders area then
    some { row_number := 0, column := "headers"
           value := String.intercalate "," headers
           error_type := "invalid_headers"
           message := "Expected headers " ++ String.intercalate "," (expectedHeaders area) ++
             ", got " ++ String.intercalate "," headers }
  else none

/-- validator.ValidationReport (final state). -/
structure ValidationReport where
  area : Area
  total_rows : Nat
  valid_rows : Nat := 0
  invalid_rows : Nat := 0
  errors : List ValidationError := []
deriving DecidableEq

/-- validator.validate_csv, final yielded report. A truthy header row that
differs from the expected sequence short-circuits with the single header
error; otherwise every row is validated in order (row numbers start at 2),
invalid rows counted once however many errors they carry. -/
def validate_csv_final (area : Area) (headers : List String) (rows : List Row) :
    ValidationReport :=
  if headers ≠ [] ∧ headers ≠ expectedHeaders area then
    { area := area, total_rows := 0
      errors :=
        match validate_headers area headers with
        | some e => [e]
        | none => [] }
  else
    let rowErrs := rows.enum.map (fun p => validateRow area p.2 (p.1 + 2))
    let invalid := (rowErrs.filter (fun es => es ≠ [])).length
    { area := area, total_rows := rows.length
      valid_rows := rows.length - invalid
      invalid_rows := invalid
      errors := rowErrs.flatten }

/-! ### Derived definitions, auxiliary predicates and the concrete
instances used by the claims below -/

/-- A finite sequence of add operations on an area index. -/
def AreaIndex.addAll (idx : AreaIndex) (rs : List AreaRecord) : AreaIndex :=
  rs.foldl AreaIndex.add idx

/-- A finite sequence of add operations on the island index. -/
def IslandIndex.addAll (idx : IslandIndex) (rs : List IslandRecord) : IslandIndex :=
  rs.foldl IslandIndex.add idx

/-- The invariant relating status, suggestions and the corrected copy. -/
def statusSuggestionsInv (r : RowNormalization) : Prop :=
  ((r.status = .valid ∨ r.status = .not_found) →
    (r.suggestions = [] ∧ r.corrected = r.original)) ∧
  (r.status = .corrected → r.suggestions ≠ []) ∧
  (r.status = .ambiguous → 2 ≤ r.suggestions.length)

/-- The row's code is absent from the index of its area type. -/
def GroundTruthIndex.code_absent (gt : GroundTruthIndex) (area : Area)
    (code : String) : Prop :=
  match area with
  | .province => gt.provinces.get_by_code code = none
  | .regency => gt.regencies.get_by_code code = none
  | .district => gt.districts.get_by_code code = none
  | .village => gt.villages.get_by_code code = none
  | .island => gt.islands.get_by_code code = none

/-- The parent-code argument each normalize_* passes to the fuzzy search. -/
def parentArgOf (area : Area) (row : Row) : Option String :=
  match area with
  | .province => none
  | .regency => some (rowGet row "province_code")
  | .district => some (rowGet row "regency_code")
  | .village => some (rowGet row "district_code")
  | .island => some (rowGet row "regency_code")

/-- Score gap between the best and second-best candidate. -/
def scoreGap : List MatchCandidate → Rat
  | a :: b :: _ => a.score - b.score
  | _ => 0

/-- The reference record's name for an exact code hit, per area type. -/
def refName (gt : GroundTruthIndex) (area : Area) (code : String) : Option String :=
  match area with
  | .province => (gt.provinces.get_by_code code).map AreaRecord.name
  | .regency => (gt.regencies.get_by_code code).map AreaRecord.name
  | .district => (gt.districts.get_by_code code).map AreaRecord.name
  | .village => (gt.villages.get_by_code code).map AreaRecord.name
  | .island => (gt.islands.get_by_code code).map IslandRecord.name

/-- Every comparable field other than the name already agrees with the
reference record found by the row's code (parent code, and for islands
the coordinate, which is only compared when the reference coordinate is
non-empty). -/
def otherFieldsMatch (gt : GroundTruthIndex) (area : Area) (row : Row) : Prop :=
  match area with
  | .province => True
  | .regency =>
    match gt.regencies.get_by_code (rowGet row "code") with
    | some rec => rec.parent_code = rowGet row "province_code"
    | none => True
  | .district =>
    match gt.districts.get_by_code (rowGet row "code") with
    | some rec => rec.parent_code = rowGet row "regency_code"
    | none => True
  | .village =>
    match gt.villages.get_by_code (rowGet row "code") with
    | some rec => rec.parent_code = rowGet row "district_code"
    | none => True
  | .island =>
    match gt.islands.get_by_code (rowGet row "code") with
    | some rec => rec.regency_code = rowGet row "regency_code" ∧
        (rec.coordinate = "" ∨ rec.coordinate = rowGet row "coordinate")
    | none => True

/-- How many comparable fields other than the name diverge from the
reference record found by the row's code: the parent code for regencies,
districts, villages and islands, plus the coordinate for islands (which
the exact-code path compares only when the reference coordinate is
non-empty). Provinces have no such field. -/
def divergentOtherFieldCount (gt : GroundTruthIndex) (area : Area) (row : Row) : Nat :=
  match area with
  | .province => 0
  | .regency =>
    match gt.regencies.get_by_code (rowGet row "code") with
    | some rec => if rec.parent_code = rowGet row "province_code" then 0 else 1
    | none => 0
  | .district =>
    match gt.districts.get_by_code (rowGet row "code") with
    | some rec => if rec.parent_code = rowGet row "regency_code" then 0 else 1
    | none => 0
  | .village =>
    match gt.villages.get_by_code (rowGet row "code") with
    | some rec => if rec.parent_code = rowGet row "district_code" then 0 else 1
    | none => 0
  | .island =>
    match gt.islands.get_by_code (rowGet row "code") with
    | some rec =>
      (if rec.regency_code = rowGet row "regency_code" then 0 else 1) +
      (if rec.coordinate ≠ "" ∧ rowGet row "coordinate" ≠ rec.coordinate then 1 else 0)
    | none => 0

/-- Two reference provinces sharing the name AB (ambiguity data). -/
def gtTie : GroundTruthIndex :=
  (GroundTruthIndex.empty.add_area_record .province
    { code := "01", name := "AB" }).add_area_record .province
    { code := "02", name := "AB" }

def nzTie : Normalizer := { ground_truth := gtTie }

def rowTie : Row := [("code", "99"), ("name", "AB")]

/-- One reference province ACEH. -/
def gtProv : GroundTruthIndex :=
  GroundTruthIndex.empty.add_area_record .province { code := "11", name := "ACEH" }

def nzProv : Normalizer := { ground_truth := gtProv }

def rowProvValid : Row := [("code", "11"), ("name", "ACEH")]

def rowProvTypo : Row := [("code", "11"), ("name", "ACE")]

/-- One reference island without a stored coordinate. -/
def gtIsl : GroundTruthIndex :=
  GroundTruthIndex.empty.add_island_record
    { code := "11.01.40001", name := "PULA", regency_code := "11.01",
      coordinate := "", is_populated := "1", is_outermost_small := "0" }

def nzIsl : Normalizer := { ground_truth := gtIsl }

def rowIsl : Row :=
  [("code", "11.01.40001"), ("regency_code", "22.02"), ("coordinate", "X"),
   ("is_populated", "0"), ("is_outermost_small", "1"), ("name", "Q")]

/-- Scoped-search counterexample data: regency BANDAX under province 11,
regency MEDAN under province 12. -/
def gtScope : GroundTruthIndex :=
  (GroundTruthIndex.empty.add_area_record .regency
    { code := "11.01", name := "BANDAX", parent_code := "11" }).add_area_record .regency
    { code := "12.01", name := "MEDAN", parent_code := "12" }

def nzScope : Normalizer := { ground_truth := gtScope }

def rowScope : Row := [("code", "99.99"), ("province_code", "11"), ("name", "MEDAN")]

/-- Island row with a syntactically valid regency_code that does not match
the code's leading segments. -/
def rowIslMismatch : Row :=
  [("code", "11.01.40001"), ("regency_code", "22.02"), ("coordinate", ""),
   ("is_populated", "1"), ("is_outermost_small", "0"), ("name", "P")]

/-- Island row with an empty regency_code whose code's middle segment is
NOT 00. -/
def rowIslEmptyRC : Row :=
  [("code", "11.01.40001"), ("regency_code", ""), ("coordinate", ""),
   ("is_populated", "1"), ("is_outermost_small", "0"), ("name", "P")]

/-- Scenario E row: empty regency_code, code 12.00.40001. -/
def rowIslScenE : Row :=
  [("code", "12.00.40001"), ("regency_code", ""), ("coordinate", ""),
   ("is_populated", "1"), ("is_outermost_small", "0"), ("name", "P")]

/-- A directory with an unreadable file followed by a readable province
file. -/
def dirWithUnreadable : Directory :=
  { isDir := true, path := "data"
    files := [FileContent.unreadable,
              FileContent.readable ["code", "name"] [[("code", "11"), ("name", "A")]]] }

/-! ### Helper lemmas on rows -/

theorem rowGet_eq_find? (row : Row) (k : String) :
    rowGet row k = ((row.find? (fun p => p.1 = k)).map Prod.snd).getD "" := by
  unfold rowGet
  cases row.find? (fun p => p.1 = k) <;> rfl

theorem find?_cons_eq (p : α → Bool) (a : α) (l : List α) :
    (a :: l).find? p = bif p a then some a else l.find? p := by
  rw [List.find?_cons]
  cases p a <;> rfl

theorem rowGet_map_subst_ne (row : Row) (k v k' : String) (h : k' ≠ k) :
    rowGet (row.map (fun p => if p.1 = k then (k, v) else p)) k' = rowGet row k' := by
  induction row with
  | nil => rfl
  | cons p ps ih =>
    by_cases hp : p.1 = k
    · rw [rowGet_eq_find?, rowGet_eq_find?] at *
      simp only [List.map_cons, hp, if_pos, find?_cons_eq]
      have h1 : (decide ((k, v).1 = k')) = false := by simp [Ne.symm h]
      have h2 : (decide (p.1 = k')) = false := by simp [hp, Ne.symm h]
      simp only [h1, h2, Bool.cond_false, show (decide False) = false from rfl]
      exact ih
    · rw [rowGet_eq_find?, rowGet_eq_find?] at *
      simp only [List.map_cons, hp, if_neg, not_false_iff, find?_cons_eq]
      cases hd : decide (p.1 = k')
      · rw [Bool.cond_false, Bool.cond_false]
        exact ih
      · rw [Bool.cond_true, Bool.cond_true]

theorem rowGet_append_single_ne (row : Row) (k v k' : String) (h : k' ≠ k) :
    rowGet (row ++ [(k, v)]) k' = rowGet row k' := by
  rw [rowGet_eq_find?, rowGet_eq_find?, List.find?_append]
  have h1 : ([((k, v))].find? (fun p => p.1 = k')) = none := by
    simp [find?_cons_eq, Ne.symm h]
  rw [h1]
  cases row.find? (fun p => p.1 = k') <;> rfl

theorem rowGet_rowSet_ne (row : Row) (k v k' : String) (h : k' ≠ k) :
    rowGet (rowSet row k v) k' = rowGet row k' := by
  unfold rowSet
  split
  · exact rowGet_map_subst_ne row k v k' h
  · exact rowGet_append_single_ne row k v k' h

theorem rowGet_map_subst_self (row : Row) (k v : String)
    (hany : (row.any fun p => p.1 = k) = true) :
    rowGet (row.map (fun p => if p.1 = k then (k, v) else p)) k = v := by
  induction row with
  | nil => simp at hany
  | cons p ps ih =>
    by_cases hp : p.1 = k
    · rw [rowGet_eq_find?]
      simp only [List.map_cons, hp, if_pos, find?_cons_eq]
      simp
    · simp only [List.any_cons, decide_eq_true_eq, Bool.or_eq_true] at hany
      rcases hany with hany | hany
      · exact absurd hany hp
      · rw [rowGet_eq_find?] at *
        simp only [List.map_cons, hp, if_neg, not_false_iff, find?_cons_eq]
        have h2 : (decide (p.1 = k)) = false := by simp [hp]
        simp only [h2, Bool.cond_false, show (decide False) = false from rfl]
        exact ih hany

theorem rowGet_rowSet_self (row : Row) (k v : String) :
    rowGet (rowSet row k v) k = v := by
  unfold rowSet
  split
  · rename_i hany
    exact rowGet_map_subst_self row k v hany
  · rename_i hany
    have hnone : row.find? (fun p => p.1 = k) = none := by
      rw [List.find?_eq_none]
      intro x hx
      simp only [decide_eq_true_eq]
      intro hk
      refine hany ?_
      simp only [List.any_eq_true]
      exact ⟨x, hx, by simp [hk]⟩
    rw [rowGet_eq_find?, List.find?_append, hnone]
    simp [find?_cons_eq]

/-! ### Claim C8: last-write-wins exact lookup and length of the indexes -/

theorem AreaIndex.get_by_code_add (idx : AreaIndex) (r : AreaRecord) (c : String) :
    (idx.add r).get_by_code c = if r.code = c then some r else idx.get_by_code c := by
  simp only [AreaIndex.add, AreaIndex.get_by_code, List.find?_cons]
  by_cases h : r.code = c <;> simp [h]

theorem AreaIndex.get_by_code_addAll (rs : List AreaRecord) (idx : AreaIndex)
    (c : String) :
    (idx.addAll rs).get_by_code c =
      ((rs.filter (fun x => x.code = c)).getLast?).or (idx.get_by_code c) := by
  induction rs generalizing idx with
  | nil => simp [AreaIndex.addAll]
  | cons r rs ih =>
    have hstep : (idx.addAll (r :: rs)) = ((idx.add r).addAll rs) := rfl
    rw [hstep, ih, AreaIndex.get_by_code_add]
    by_cases h : r.code = c
    · have hf : (r :: rs).filter (fun x => x.code = c) = r :: rs.filter (fun x => x.code = c) := by
        simp [List.filter_cons, h]
      rw [hf, if_pos h]
      cases hfilter : rs.filter (fun x => x.code = c) with
      | nil => simp [hfilter]
      | cons b t =>
        rw [List.getLast?_cons_cons]
        obtain ⟨x, hx⟩ : ∃ x, (b :: t).getLast? = some x :=
          ⟨(b :: t).getLast (by simp), List.getLast?_eq_getLast _ _⟩
        rw [hx]
        rfl
    · have hf : (r :: rs).filter (fun x => x.code = c) = rs.filter (fun x => x.code = c) := by
        simp [List.filter_cons, h]
      rw [hf, if_neg h]

theorem AreaIndex.records_addAll (rs : List AreaRecord) (idx : AreaIndex) :
    (idx.addAll rs).records = idx.records ++ rs := by
  induction rs generalizing idx with
  | nil => simp [AreaIndex.addAll]
  | cons r rs ih =>
    have hstep : (idx.addAll (r :: rs)) = ((idx.add r).addAll rs) := rfl
    rw [hstep, ih]
    simp [AreaIndex.add]

theorem island_index_get_by_code_add (idx : IslandIndex) (r : IslandRecord) (c : String) :
    (idx.add r).get_by_code c = if r.code = c then some r else idx.get_by_code c := by
  simp only [IslandIndex.add, IslandIndex.get_by_code, List.find?_cons]
  by_cases h : r.code = c <;> simp [h]

theorem island_index_get_by_code_addAll (rs : List IslandRecord) (idx : IslandIndex)
    (c : String) :
    (idx.addAll rs).get_by_code c =
      ((rs.filter (fun x => x.code = c)).getLast?).or (idx.get_by_code c) := by
  induction rs generalizing idx with
  | nil => simp [IslandIndex.addAll]
  | cons r rs ih =>
    have hstep : (idx.addAll (r :: rs)) = ((idx.add r).addAll rs) := rfl
    rw [hstep, ih, island_index_get_by_code_add]
    by_cases h : r.code = c
    · have hf : (r :: rs).filter (fun x => x.code = c) = r :: rs.filter (fun x => x.code = c) := by
        simp [List.filter_cons, h]
      rw [hf, if_pos h]
      cases hfilter : rs.filter (fun x => x.code = c) with
      | nil => simp [hfilter]
      | cons b t =>
        rw [List.getLast?_cons_cons]
        obtain ⟨x, hx⟩ : ∃ x, (b :: t).getLast? = some x :=
          ⟨(b :: t).getLast (by simp), List.getLast?_eq_getLast _ _⟩
        rw [hx]
        rfl
    · have hf : (r :: rs).filter (fun x => x.code = c) = rs.filter (fun x => x.code = c) := by
        simp [List.filter_cons, h]
      rw [hf, if_neg h]

theorem island_index_records_addAll (rs : List IslandRecord) (idx : IslandIndex) :
    (idx.addAll rs).records = idx.records ++ rs := by
  induction rs generalizing idx with
  | nil => simp [IslandIndex.addAll]
  | cons r rs ih =>
    have hstep : (idx.addAll (r :: rs)) = ((idx.add r).addAll rs) := rfl
    rw [hstep, ih]
    simp [IslandIndex.add]

/-- C8: for every finite sequence of add operations on an area or island
index and every record r in the sequence, get_by_code(r.code) afterwards
returns a record, namely the last record added whose code equals r.code
(last write wins for duplicated codes), and the index's length equals the
total number of add calls. -/
theorem claim_C8_last_write_wins (a : Area) (rs : List AreaRecord)
    (ts : List IslandRecord) (r : AreaRecord) (t : IslandRecord)
    (hr : r ∈ rs) (ht : t ∈ ts) :
    (∃ r2, (AreaIndex.addAll { area := a } rs).get_by_code r.code = some r2 ∧
      (rs.filter (fun x => x.code = r.code)).getLast? = some r2) ∧
    (AreaIndex.addAll { area := a } rs).length = rs.length ∧
    (∃ t2, (IslandIndex.addAll {} ts).get_by_code t.code = some t2 ∧
      (ts.filter (fun x => x.code = t.code)).getLast? = some t2) ∧
    (IslandIndex.addAll {} ts).length = ts.length := by
  have hfilA : rs.filter (fun x => x.code = r.code) ≠ [] := by
    intro hc
    have hmem : r ∈ rs.filter (fun x => x.code = r.code) :=
      List.mem_filter.mpr ⟨hr, by simp⟩
    rw [hc] at hmem
    simp at hmem
  obtain ⟨r2, hr2⟩ : ∃ r2, (rs.filter (fun x => x.code = r.code)).getLast? = some r2 := by
    obtain ⟨b, tl, hbt⟩ := List.exists_cons_of_ne_nil hfilA
    rw [hbt]
    exact ⟨(b :: tl).getLast (by simp), List.getLast?_eq_getLast _ _⟩
  have hfilI : ts.filter (fun x => x.code = t.code) ≠ [] := by
    intro hc
    have hmem : t ∈ ts.filter (fun x => x.code = t.code) :=
      List.mem_filter.mpr ⟨ht, by simp⟩
    rw [hc] at hmem
    simp at hmem
  obtain ⟨t2, ht2⟩ : ∃ t2, (ts.filter (fun x => x.code = t.code)).getLast? = some t2 := by
    obtain ⟨b, tl, hbt⟩ := List.exists_cons_of_ne_nil hfilI
    rw [hbt]
    exact ⟨(b :: tl).getLast (by simp), List.getLast?_eq_getLast _ _⟩
  refine ⟨⟨r2, ?_, hr2⟩, ?_, ⟨t2, ?_, ht2⟩, ?_⟩
  · rw [AreaIndex.get_by_code_addAll, hr2]
    rfl
  · rw [AreaIndex.length, AreaIndex.records_addAll]
    simp
  · rw [island_index_get_by_code_addAll, ht2]
    rfl
  · rw [IslandIndex.length, island_index_records_addAll]
    simp

/-- C8 witness: three area adds with a duplicated code and two island adds;
the lookup returns the last record added under the duplicated code and the
lengths count every add call. -/
theorem claim_C8_witness :
    (∃ r2, (AreaIndex.addAll { area := Area.province }
        [{ code := "11", name := "A" }, { code := "12", name := "B" },
         { code := "11", name := "C" }]).get_by_code "11" = some r2 ∧
      ([({ code := "11", name := "A" } : AreaRecord), { code := "12", name := "B" },
        { code := "11", name := "C" }].filter (fun x => x.code = "11")).getLast? = some r2) ∧
    (AreaIndex.addAll { area := Area.province }
      [{ code := "11", name := "A" }, { code := "12", name := "B" },
       { code := "11", name := "C" }]).length = 3 ∧
    (∃ t2, (IslandIndex.addAll {}
        [{ code := "11.01.40001", name := "P" },
         { code := "11.01.40002", name := "Q" }]).get_by_code "11.01.40001" = some t2 ∧
      ([({ code := "11.01.40001", name := "P" } : IslandRecord),
        { code := "11.01.40002", name := "Q" }].filter
          (fun x => x.code = "11.01.40001")).getLast? = some t2) ∧
    (IslandIndex.addAll {}
      [{ code := "11.01.40001", name := "P" },
       { code := "11.01.40002", name := "Q" }]).length = 2 :=
  claim_C8_last_write_wins Area.province
    [{ code := "11", name := "A" }, { code := "12", name := "B" },
     { code := "11", name := "C" }]
    [{ code := "11.01.40001", name := "P" }, { code := "11.01.40002", name := "Q" }]
    { code := "11", name := "A" } { code := "11.01.40001", name := "P" }
    (by decide) (by decide)

/-! ### Claim C9: status/suggestions invariant of normalize_row -/

theorem evaluate_matches_inv (nz : Normalizer) (row : Row) (rn : Nat)
    (name : String) (ms : List MatchCandidate) (area : Area) :
    statusSuggestionsInv (nz.evaluate_matches row rn name row ms area) := by
  unfold Normalizer.evaluate_matches statusSuggestionsInv
  cases ms with
  | nil => simp
  | cons top rest =>
    cases rest with
    | nil =>
      cases h : nz.get_record_by_code area ((top.key).getD "") <;>
        simp [h]
    | cons second t =>
      by_cases hg : top.score - second.score < nz.ambiguity_threshold
      · simp [hg]
      · cases h : nz.get_record_by_code area ((top.key).getD "") <;>
          simp [h, hg]

theorem normalize_by_name_inv (nz : Normalizer) (row : Row) (rn : Nat)
    (name : String) (area : Area) (pc : Option String) :
    statusSuggestionsInv (nz.normalize_by_name row rn name area row pc) := by
  rw [Normalizer.normalize_by_name]
  by_cases hms : nz.ground_truth.search_name_in_context name area pc 3
      nz.confidence_threshold = []
  · simp only [hms, if_pos]
    simp [statusSuggestionsInv]
  · simp only [hms, if_neg, not_false_iff]
    exact evaluate_matches_inv nz row rn name _ area

theorem normalize_island_by_name_inv (nz : Normalizer) (row : Row) (rn : Nat)
    (name : String) (rc : String) :
    statusSuggestionsInv (nz.normalize_island_by_name row rn name row rc) := by
  rw [Normalizer.normalize_island_by_name]
  cases hms : nz.ground_truth.search_name_in_context name .island (some rc) 3
      nz.confidence_threshold with
  | nil => simp [statusSuggestionsInv]
  | cons top rest =>
    unfold statusSuggestionsInv
    cases rest with
    | nil =>
      cases h : nz.ground_truth.islands.get_by_code ((top.key).getD "") <;>
        simp [h]
    | cons second t =>
      by_cases hg : top.score - second.score < nz.ambiguity_threshold
      · simp [hg]
      · cases h : nz.ground_truth.islands.get_by_code ((top.key).getD "") <;>
          simp [h, hg]

theorem normalize_province_inv (nz : Normalizer) (row : Row) (rn : Nat) :
    statusSuggestionsInv (nz.normalize_province row rn) := by
  cases h : nz.ground_truth.provinces.get_by_code (rowGet row "code") with
  | none =>
    simp only [Normalizer.normalize_province, h]
    exact normalize_by_name_inv nz row rn _ .province none
  | some record =>
    by_cases hn : record.name = rowGet row "name" <;>
      simp [Normalizer.normalize_province, h, hn, statusSuggestionsInv]

theorem normalize_regency_inv (nz : Normalizer) (row : Row) (rn : Nat) :
    statusSuggestionsInv (nz.normalize_regency row rn) := by
  cases h : nz.ground_truth.regencies.get_by_code (rowGet row "code") with
  | none =>
    simp only [Normalizer.normalize_regency, h]
    exact normalize_by_name_inv nz row rn _ .regency _
  | some record =>
    by_cases h1 : record.name = rowGet row "name" <;>
      by_cases h2 : record.parent_code = rowGet row "province_code" <;>
        simp [Normalizer.normalize_regency, h, h1, h2, statusSuggestionsInv]

theorem normalize_district_inv (nz : Normalizer) (row : Row) (rn : Nat) :
    statusSuggestionsInv (nz.normalize_district row rn) := by
  cases h : nz.ground_truth.districts.get_by_code (rowGet row "code") with
  | none =>
    simp only [Normalizer.normalize_district, h]
    exact normalize_by_name_inv nz row rn _ .district _
  | some record =>
    by_cases h1 : record.name = rowGet row "name" <;>
      by_cases h2 : record.parent_code = rowGet row "regency_code" <;>
        simp [Normalizer.normalize_district, h, h1, h2, statusSuggestionsInv]

theorem normalize_village_inv (nz : Normalizer) (row : Row) (rn : Nat) :
    statusSuggestionsInv (nz.normalize_village row rn) := by
  cases h : nz.ground_truth.villages.get_by_code (rowGet row "code") with
  | none =>
    simp only [Normalizer.normalize_village, h]
    exact normalize_by_name_inv nz row rn _ .village _
  | some record =>
    by_cases h1 : record.name = rowGet row "name" <;>
      by_cases h2 : record.parent_code = rowGet row "district_code" <;>
        simp [Normalizer.normalize_village, h, h1, h2, statusSuggestionsInv]

theorem normalize_island_inv (nz : Normalizer) (row : Row) (rn : Nat) :
    statusSuggestionsInv (nz.normalize_island row rn) := by
  cases h : nz.ground_truth.islands.get_by_code (rowGet row "code") with
  | none =>
    simp only [Normalizer.normalize_island, h]
    exact normalize_island_by_name_inv nz row rn _ _
  | some record =>
    by_cases h1 : record.name = rowGet row "name" <;>
      by_cases h2 : record.regency_code = rowGet row "regency_code" <;>
        by_cases h3 : record.coordinate ≠ "" ∧ rowGet row "coordinate" ≠ record.coordinate <;>
          simp [Normalizer.normalize_island, h, h1, h2, h3, statusSuggestionsInv]

/-- C9: for every input row and area type, the RowNormalization returned
by normalize_row satisfies: status valid or not_found implies an empty
suggestions list and corrected equal to original; status corrected
implies a non-empty suggestions list; status ambiguous implies at least
two suggestions. -/
theorem claim_C9_status_invariant (nz : Normalizer) (row : Row) (rn : Nat)
    (area : Area) :
    (((nz.normalize_row row rn area).status = .valid ∨
        (nz.normalize_row row rn area).status = .not_found) →
      ((nz.normalize_row row rn area).suggestions = [] ∧
        (nz.normalize_row row rn area).corrected = (nz.normalize_row row rn area).original)) ∧
    ((nz.normalize_row row rn area).status = .corrected →
      (nz.normalize_row row rn area).suggestions ≠ []) ∧
    ((nz.normalize_row row rn area).status = .ambiguous →
      2 ≤ (nz.normalize_row row rn area).suggestions.length) := by
  cases area with
  | province => exact normalize_province_inv nz row rn
  | regency => exact normalize_regency_inv nz row rn
  | district => exact normalize_district_inv nz row rn
  | village => exact normalize_village_inv nz row rn
  | island => exact normalize_island_inv nz row rn

/-! ### Claim C2: ambiguity invariant -/

theorem evaluate_matches_ambiguous (nz : Normalizer) (row : Row) (rn : Nat)
    (name : String) (corrected : Row) (top second : MatchCandidate)
    (t : List MatchCandidate) (area : Area)
    (hg : top.score - second.score < nz.ambiguity_threshold) :
    nz.evaluate_matches row rn name corrected (top :: second :: t) area =
      { row_number := rn, original := row, corrected := corrected
        status := .ambiguous
        suggestions := (top :: second :: t).map (fun m =>
          { original := name, suggested := m.value, confidence := m.score
            reason := "Fuzzy match candidate (code: " ++ optKeyStr m.key ++ ")" }) } := by
  unfold Normalizer.evaluate_matches
  simp [hg]

/-- C2: for every row whose code is not in the index and whose fuzzy
search returns at least two candidates with the score gap between the
best and second-best candidate strictly below the ambiguity threshold,
the RowNormalization has status ambiguous, corrected equal to original
(no field overwritten), and exactly one Suggestion per returned
candidate. -/
theorem claim_C2_ambiguity (nz : Normalizer) (area : Area) (row : Row) (rn : Nat)
    (h1 : nz.ground_truth.code_absent area (rowGet row "code"))
    (h2 : 2 ≤ (nz.ground_truth.search_name_in_context (rowGet row "name") area
      (parentArgOf area row) 3 nz.confidence_threshold).length)
    (h3 : scoreGap (nz.ground_truth.search_name_in_context (rowGet row "name") area
      (parentArgOf area row) 3 nz.confidence_threshold) < nz.ambiguity_threshold) :
    (nz.normalize_row row rn area).status = .ambiguous ∧
    (nz.normalize_row row rn area).corrected = (nz.normalize_row row rn area).original ∧
    (nz.normalize_row row rn area).suggestions.length =
      (nz.ground_truth.search_name_in_context (rowGet row "name") area
        (parentArgOf area row) 3 nz.confidence_threshold).length := by
  cases area with
  | province =>
    simp only [GroundTruthIndex.code_absent] at h1
    simp only [parentArgOf] at h2 h3 ⊢
    simp only [Normalizer.normalize_row, Normalizer.normalize_province, h1]
    simp only [Normalizer.normalize_by_name]
    generalize hms : nz.ground_truth.search_name_in_context (rowGet row "name")
      Area.province none 3 nz.confidence_threshold = ms at h2 h3 ⊢
    match ms, h2 with
    | top :: second :: t, _ =>
      unfold scoreGap at h3
      rw [if_neg (by simp)]
      rw [evaluate_matches_ambiguous nz row rn _ row top second t _ h3]
      simp
  | regency =>
    simp only [GroundTruthIndex.code_absent] at h1
    simp only [parentArgOf] at h2 h3 ⊢
    simp only [Normalizer.normalize_row, Normalizer.normalize_regency, h1]
    simp only [Normalizer.normalize_by_name]
    generalize hms : nz.ground_truth.search_name_in_context (rowGet row "name")
      Area.regency (some (rowGet row "province_code")) 3 nz.confidence_threshold = ms at h2 h3 ⊢
    match ms, h2 with
    | top :: second :: t, _ =>
      unfold scoreGap at h3
      rw [if_neg (by simp)]
      rw [evaluate_matches_ambiguous nz row rn _ row top second t _ h3]
      simp
  | district =>
    simp only [GroundTruthIndex.code_absent] at h1
    simp only [parentArgOf] at h2 h3 ⊢
    simp only [Normalizer.normalize_row, Normalizer.normalize_district, h1]
    simp only [Normalizer.normalize_by_name]
    generalize hms : nz.ground_truth.search_name_in_context (rowGet row "name")
      Area.district (some (rowGet row "regency_code")) 3 nz.confidence_threshold = ms at h2 h3 ⊢
    match ms, h2 with
    | top :: second :: t, _ =>
      unfold scoreGap at h3
      rw [if_neg (by simp)]
      rw [evaluate_matches_ambiguous nz row rn _ row top second t _ h3]
      simp
  | village =>
    simp only [GroundTruthIndex.code_absent] at h1
    simp only [parentArgOf] at h2 h3 ⊢
    simp only [Normalizer.normalize_row, Normalizer.normalize_village, h1]
    simp only [Normalizer.normalize_by_name]
    generalize hms : nz.ground_truth.search_name_in_context (rowGet row "name")
      Area.village (some (rowGet row "district_code")) 3 nz.confidence_threshold = ms at h2 h3 ⊢
    match ms, h2 with
    | top :: second :: t, _ =>
      unfold scoreGap at h3
      rw [if_neg (by simp)]
      rw [evaluate_matches_ambiguous nz row rn _ row top second t _ h3]
      simp
  | island =>
    simp only [GroundTruthIndex.code_absent] at h1
    simp only [parentArgOf] at h2 h3 ⊢
    simp only [Normalizer.normalize_row, Normalizer.normalize_island, h1]
    simp only [Normalizer.normalize_island_by_name]
    generalize hms : nz.ground_truth.search_name_in_context (rowGet row "name")
      Area.island (some (rowGet row "regency_code")) 3 nz.confidence_threshold = ms at h2 h3 ⊢
    match ms, h2 with
    | top :: second :: t, _ =>
      unfold scoreGap at h3
      simp [h3]

/-! ### Claim C3: exact-code correction invariant -/

/-- C3 counterexample: a regency row whose code is in the index but whose
name AND parent code both differ from the reference record yields TWO
suggestions with confidence 100, refuting the claim's "exactly one
Suggestion with confidence == 100". -/
theorem claim_C3_counterexample :
    ((Normalizer.mk (GroundTruthIndex.empty.add_area_record .regency
        { code := "11.01", name := "X", parent_code := "11" }) 80 5).normalize_regency
      [("code", "11.01"), ("province_code", "99"), ("name", "Y")] 2).status = .corrected ∧
    (((Normalizer.mk (GroundTruthIndex.empty.add_area_record .regency
        { code := "11.01", name := "X", parent_code := "11" }) 80 5).normalize_regency
      [("code", "11.01"), ("province_code", "99"), ("name", "Y")] 2).suggestions.filter
        (fun s => s.confidence = 100)).length = 2 := by
  with_unfolding_all decide

/-- C3 (amended): if the row\'s code exists in the index of its area type
and the reference name differs from the row\'s name, the status is
corrected, corrected.name equals the reference name, all emitted
suggestions carry confidence 100, their number is one (for the name) plus
one per divergent other comparable field (parent code; island coordinate
when the reference coordinate is non-empty), and exactly one suggestion
is emitted if and only if every other comparable field already matches
the reference record. -/
theorem claim_C3_amended (nz : Normalizer) (area : Area) (row : Row) (rn : Nat)
    (rname : String)
    (href : refName nz.ground_truth area (rowGet row "code") = some rname)
    (hne : rname ≠ rowGet row "name") :
    (nz.normalize_row row rn area).status = .corrected ∧
    rowGet (nz.normalize_row row rn area).corrected "name" = rname ∧
    (nz.normalize_row row rn area).suggestions ≠ [] ∧
    (∀ s ∈ (nz.normalize_row row rn area).suggestions, s.confidence = 100) ∧
    (nz.normalize_row row rn area).suggestions.length =
      1 + divergentOtherFieldCount nz.ground_truth area row ∧
    (otherFieldsMatch nz.ground_truth area row ↔
      (nz.normalize_row row rn area).suggestions.length = 1) := by
  cases area with
  | province =>
    simp only [refName] at href
    cases hrec : nz.ground_truth.provinces.get_by_code (rowGet row "code") with
    | none => rw [hrec] at href; cases href
    | some rec =>
      rw [hrec] at href
      simp only [Option.map_some', Option.some.injEq] at href
      have hname : ¬ rec.name = rowGet row "name" := href ▸ hne
      have hne2 : ¬ rname = rowGet row "name" := hne
      refine ⟨?_, ?_, ?_, ?_, ?_, ?_⟩ <;>
        simp [Normalizer.normalize_row, Normalizer.normalize_province, hrec, hname, hne2, href,
          rowGet_rowSet_self, otherFieldsMatch, divergentOtherFieldCount]
  | regency =>
    simp only [refName] at href
    cases hrec : nz.ground_truth.regencies.get_by_code (rowGet row "code") with
    | none => rw [hrec] at href; cases href
    | some rec =>
      rw [hrec] at href
      simp only [Option.map_some', Option.some.injEq] at href
      have hname : ¬ rec.name = rowGet row "name" := href ▸ hne
      have hne2 : ¬ rname = rowGet row "name" := hne
      by_cases hp : rec.parent_code = rowGet row "province_code"
      · refine ⟨?_, ?_, ?_, ?_, ?_, ?_⟩ <;>
          simp [Normalizer.normalize_row, Normalizer.normalize_regency, hrec, hname, hne2, href,
            hp, rowGet_rowSet_self, otherFieldsMatch, divergentOtherFieldCount]
      · have hg1 : rowGet (rowSet (rowSet row "name" rname) "province_code"
            rec.parent_code) "name" = rname := by
          rw [rowGet_rowSet_ne _ _ _ _ (by decide), rowGet_rowSet_self]
        refine ⟨?_, ?_, ?_, ?_, ?_, ?_⟩
        · simp [Normalizer.normalize_row, Normalizer.normalize_regency, hrec, hname, hne2, href, hp]
        · simp [Normalizer.normalize_row, Normalizer.normalize_regency, hrec, hname, hne2, href,
            hp, hg1]
        · simp [Normalizer.normalize_row, Normalizer.normalize_regency, hrec, hname, hne2, href, hp]
        · simp [Normalizer.normalize_row, Normalizer.normalize_regency, hrec, hname, hne2, href, hp]
        · simp [Normalizer.normalize_row, Normalizer.normalize_regency, hrec, hname, hne2, href,
            hp, divergentOtherFieldCount]
        · simp [Normalizer.normalize_row, Normalizer.normalize_regency, hrec, hname, hne2, href,
            hp, otherFieldsMatch, divergentOtherFieldCount]
  | district =>
    simp only [refName] at href
    cases hrec : nz.ground_truth.districts.get_by_code (rowGet row "code") with
    | none => rw [hrec] at href; cases href
    | some rec =>
      rw [hrec] at href
      simp only [Option.map_some', Option.some.injEq] at href
      have hname : ¬ rec.name = rowGet row "name" := href ▸ hne
      have hne2 : ¬ rname = rowGet row "name" := hne
      by_cases hp : rec.parent_code = rowGet row "regency_code"
      · refine ⟨?_, ?_, ?_, ?_, ?_, ?_⟩ <;>
          simp [Normalizer.normalize_row, Normalizer.normalize_district, hrec, hname, hne2, href,
            hp, rowGet_rowSet_self, otherFieldsMatch, divergentOtherFieldCount]
      · have hg1 : rowGet (rowSet (rowSet row "name" rname) "regency_code"
            rec.parent_code) "name" = rname := by
          rw [rowGet_rowSet_ne _ _ _ _ (by decide), rowGet_rowSet_self]
        refine ⟨?_, ?_, ?_, ?_, ?_, ?_⟩
        · simp [Normalizer.normalize_row, Normalizer.normalize_district, hrec, hname, hne2, href, hp]
        · simp [Normalizer.normalize_row, Normalizer.normalize_district, hrec, hname, hne2, href,
            hp, hg1]
        · simp [Normalizer.normalize_row, Normalizer.normalize_district, hrec, hname, hne2, href, hp]
        · simp [Normalizer.normalize_row, Normalizer.normalize_district, hrec, hname, hne2, href, hp]
        · simp [Normalizer.normalize_row, Normalizer.normalize_district, hrec, hname, hne2, href,
            hp, divergentOtherFieldCount]
        · simp [Normalizer.normalize_row, Normalizer.normalize_district, hrec, hname, hne2, href,
            hp, otherFieldsMatch, divergentOtherFieldCount]
  | village =>
    simp only [refName] at href
    cases hrec : nz.ground_truth.villages.get_by_code (rowGet row "code") with
    | none => rw [hrec] at href; cases href
    | some rec =>
      rw [hrec] at href
      simp only [Option.map_some', Option.some.injEq] at href
      have hname : ¬ rec.name = rowGet row "name" := href ▸ hne
      have hne2 : ¬ rname = rowGet row "name" := hne
      by_cases hp : rec.parent_code = rowGet row "district_code"
      · refine ⟨?_, ?_, ?_, ?_, ?_, ?_⟩ <;>
          simp [Normalizer.normalize_row, Normalizer.normalize_village, hrec, hname, hne2, href,
            hp, rowGet_rowSet_self, otherFieldsMatch, divergentOtherFieldCount]
      · have hg1 : rowGet (rowSet (rowSet row "name" rname) "district_code"
            rec.parent_code) "name" = rname := by
          rw [rowGet_rowSet_ne _ _ _ _ (by decide), rowGet_rowSet_self]
        refine ⟨?_, ?_, ?_, ?_, ?_, ?_⟩
        · simp [Normalizer.normalize_row, Normalizer.normalize_village, hrec, hname, hne2, href, hp]
        · simp [Normalizer.normalize_row, Normalizer.normalize_village, hrec, hname, hne2, href,
            hp, hg1]
        · simp [Normalizer.normalize_row, Normalizer.normalize_village, hrec, hname, hne2, href, hp]
        · simp [Normalizer.normalize_row, Normalizer.normalize_village, hrec, hname, hne2, href, hp]
        · simp [Normalizer.normalize_row, Normalizer.normalize_village, hrec, hname, hne2, href,
            hp, divergentOtherFieldCount]
        · simp [Normalizer.normalize_row, Normalizer.normalize_village, hrec, hname, hne2, href,
            hp, otherFieldsMatch, divergentOtherFieldCount]
  | island =>
    simp only [refName] at href
    cases hrec : nz.ground_truth.islands.get_by_code (rowGet row "code") with
    | none => rw [hrec] at href; cases href
    | some rec =>
      rw [hrec] at href
      simp only [Option.map_some', Option.some.injEq] at href
      have hname : ¬ rec.name = rowGet row "name" := href ▸ hne
      have hne2 : ¬ rname = rowGet row "name" := hne
      by_cases hp : rec.regency_code = rowGet row "regency_code" <;>
        by_cases hc : rec.coordinate ≠ "" ∧ rowGet row "coordinate" ≠ rec.coordinate
      · have hnor : ¬ (rec.coordinate = "" ∨ rec.coordinate = rowGet row "coordinate") := by
          rintro (h2 | h2)
          · exact hc.1 h2
          · exact hc.2 h2.symm
        have hg1 : rowGet (rowSet (rowSet row "name" rname) "coordinate"
            rec.coordinate) "name" = rname := by
          rw [rowGet_rowSet_ne _ _ _ _ (by decide), rowGet_rowSet_self]
        refine ⟨?_, ?_, ?_, ?_, ?_, ?_⟩
        · simp [Normalizer.normalize_row, Normalizer.normalize_island, hrec, hname, hne2, href, hp, hc]
        · simp [Normalizer.normalize_row, Normalizer.normalize_island, hrec, hname, hne2, href,
            hp, hc, hg1]
        · simp [Normalizer.normalize_row, Normalizer.normalize_island, hrec, hname, hne2, href, hp, hc]
        · simp [Normalizer.normalize_row, Normalizer.normalize_island, hrec, hname, hne2, href, hp, hc]
        · simp [Normalizer.normalize_row, Normalizer.normalize_island, hrec, hname, hne2, href,
            hp, hc, divergentOtherFieldCount]
        · simp [Normalizer.normalize_row, Normalizer.normalize_island, hrec, hname, hne2, href,
            hp, hc, hnor, otherFieldsMatch, divergentOtherFieldCount]
          exact fun h2 => hc.2 h2.symm
      · have hor : rec.coordinate = "" ∨ rec.coordinate = rowGet row "coordinate" := by
          by_cases hcc : rec.coordinate = ""
          · exact Or.inl hcc
          · refine Or.inr ?_
            by_contra hne3
            exact hc ⟨hcc, fun he => hne3 he.symm⟩
        refine ⟨?_, ?_, ?_, ?_, ?_, ?_⟩ <;>
          simp [Normalizer.normalize_row, Normalizer.normalize_island, hrec, hname, hne2, href,
            hp, hc, hor, rowGet_rowSet_self, otherFieldsMatch, divergentOtherFieldCount]
      · have hnor : ¬ (rec.coordinate = "" ∨ rec.coordinate = rowGet row "coordinate") := by
          rintro (h2 | h2)
          · exact hc.1 h2
          · exact hc.2 h2.symm
        have hg1 : rowGet (rowSet (rowSet (rowSet row "name" rname) "regency_code"
            rec.regency_code) "coordinate" rec.coordinate) "name" = rname := by
          rw [rowGet_rowSet_ne _ _ _ _ (by decide),
            rowGet_rowSet_ne _ _ _ _ (by decide), rowGet_rowSet_self]
        refine ⟨?_, ?_, ?_, ?_, ?_, ?_⟩
        · simp [Normalizer.normalize_row, Normalizer.normalize_island, hrec, hname, hne2, href, hp, hc]
        · simp [Normalizer.normalize_row, Normalizer.normalize_island, hrec, hname, hne2, href,
            hp, hc, hg1]
        · simp [Normalizer.normalize_row, Normalizer.normalize_island, hrec, hname, hne2, href, hp, hc]
        · simp [Normalizer.normalize_row, Normalizer.normalize_island, hrec, hname, hne2, href, hp, hc]
        · simp [Normalizer.normalize_row, Normalizer.normalize_island, hrec, hname, hne2, href,
            hp, hc, divergentOtherFieldCount]
        · simp [Normalizer.normalize_row, Normalizer.normalize_island, hrec, hname, hne2, href,
            hp, hc, hnor, otherFieldsMatch, divergentOtherFieldCount]
      · have hor : rec.coordinate = "" ∨ rec.coordinate = rowGet row "coordinate" := by
          by_cases hcc : rec.coordinate = ""
          · exact Or.inl hcc
          · refine Or.inr ?_
            by_contra hne3
            exact hc ⟨hcc, fun he => hne3 he.symm⟩
        have hg1 : rowGet (rowSet (rowSet row "name" rname) "regency_code"
            rec.regency_code) "name" = rname := by
          rw [rowGet_rowSet_ne _ _ _ _ (by decide), rowGet_rowSet_self]
        refine ⟨?_, ?_, ?_, ?_, ?_, ?_⟩
        · simp [Normalizer.normalize_row, Normalizer.normalize_island, hrec, hname, hne2, href, hp, hc]
        · simp [Normalizer.normalize_row, Normalizer.normalize_island, hrec, hname, hne2, href,
            hp, hc, hg1]
        · simp [Normalizer.normalize_row, Normalizer.normalize_island, hrec, hname, hne2, href, hp, hc]
        · simp [Normalizer.normalize_row, Normalizer.normalize_island, hrec, hname, hne2, href, hp, hc]
        · simp [Normalizer.normalize_row, Normalizer.normalize_island, hrec, hname, hne2, href,
            hp, hc, divergentOtherFieldCount]
        · simp [Normalizer.normalize_row, Normalizer.normalize_island, hrec, hname, hne2, href,
            hp, hc, hor, otherFieldsMatch, divergentOtherFieldCount]

/-! ### Claim C10: frame of the exact-code island path -/

/-- C10: in the exact-code path for island rows the corrected mapping can
differ from the original only in name, regency_code and coordinate;
is_populated and is_outermost_small are never overwritten, and coordinate
is overwritten only when the reference record's coordinate is non-empty. -/
theorem claim_C10_island_frame (nz : Normalizer) (row : Row) (rn : Nat)
    (rec : IslandRecord)
    (hrec : nz.ground_truth.islands.get_by_code (rowGet row "code") = some rec) :
    (∀ k, k ≠ "name" → k ≠ "regency_code" → k ≠ "coordinate" →
      rowGet (nz.normalize_island row rn).corrected k = rowGet row k) ∧
    rowGet (nz.normalize_island row rn).corrected "is_populated" =
      rowGet row "is_populated" ∧
    rowGet (nz.normalize_island row rn).corrected "is_outermost_small" =
      rowGet row "is_outermost_small" ∧
    (rec.coordinate = "" →
      rowGet (nz.normalize_island row rn).corrected "coordinate" =
        rowGet row "coordinate") := by
  have hmain : ∀ k, k ≠ "name" → k ≠ "regency_code" → k ≠ "coordinate" →
      rowGet (nz.normalize_island row rn).corrected k = rowGet row k := by
    intro k hk1 hk2 hk3
    simp only [Normalizer.normalize_island, hrec]
    split_ifs <;> simp [rowGet_rowSet_ne, hk1, hk2, hk3]
  refine ⟨hmain, hmain _ (by decide) (by decide) (by decide),
    hmain _ (by decide) (by decide) (by decide), fun hc0 => ?_⟩
  simp only [Normalizer.normalize_island, hrec, hc0]
  split_ifs <;> simp_all [rowGet_rowSet_ne]

/-- C2 witness: a province row with an absent code whose fuzzy search ties
two candidates at score 100 (gap 0 < 5) is classified ambiguous with one
suggestion per candidate and an unmodified corrected copy. -/
theorem claim_C2_witness :
    (nzTie.normalize_row rowTie 2 .province).status = .ambiguous ∧
    (nzTie.normalize_row rowTie 2 .province).corrected =
      (nzTie.normalize_row rowTie 2 .province).original ∧
    (nzTie.normalize_row rowTie 2 .province).suggestions.length =
      (nzTie.ground_truth.search_name_in_context (rowGet rowTie "name") .province
        (parentArgOf .province rowTie) 3 nzTie.confidence_threshold).length :=
  claim_C2_ambiguity nzTie .province rowTie 2
    (by show nzTie.ground_truth.provinces.get_by_code (rowGet rowTie "code") = none
        with_unfolding_all decide)
    (by with_unfolding_all decide)
    (by with_unfolding_all decide)

/-- C3 witness: province row with code 11 and name ACE against reference
name ACEH: corrected status, corrected.name = ACEH, a single suggestion of
confidence 100. -/
theorem claim_C3_witness :
    (nzProv.normalize_row rowProvTypo 2 .province).status = .corrected ∧
    rowGet (nzProv.normalize_row rowProvTypo 2 .province).corrected "name" = "ACEH" ∧
    (nzProv.normalize_row rowProvTypo 2 .province).suggestions ≠ [] ∧
    (∀ s ∈ (nzProv.normalize_row rowProvTypo 2 .province).suggestions,
      s.confidence = 100) ∧
    (nzProv.normalize_row rowProvTypo 2 .province).suggestions.length =
      1 + divergentOtherFieldCount nzProv.ground_truth .province rowProvTypo ∧
    (otherFieldsMatch nzProv.ground_truth .province rowProvTypo ↔
      (nzProv.normalize_row rowProvTypo 2 .province).suggestions.length = 1) :=
  claim_C3_amended nzProv .province rowProvTypo 2 "ACEH"
    (by show refName nzProv.ground_truth .province (rowGet rowProvTypo "code") = some "ACEH"
        with_unfolding_all decide)
    (by decide)

/-- C9 witness: a valid province row keeps an empty suggestions list and an
unchanged corrected copy. -/
theorem claim_C9_witness :
    (nzProv.normalize_row rowProvValid 2 .province).suggestions = [] ∧
    (nzProv.normalize_row rowProvValid 2 .province).corrected =
      (nzProv.normalize_row rowProvValid 2 .province).original :=
  (claim_C9_status_invariant nzProv rowProvValid 2 .province).1
    (Or.inl (by with_unfolding_all decide))

/-- C10 witness: an island row found by exact code with an empty reference
coordinate keeps is_populated, is_outermost_small and coordinate. -/
theorem claim_C10_witness :
    (∀ k, k ≠ "name" → k ≠ "regency_code" → k ≠ "coordinate" →
      rowGet (nzIsl.normalize_island rowIsl 2).corrected k = rowGet rowIsl k) ∧
    rowGet (nzIsl.normalize_island rowIsl 2).corrected "is_populated" =
      rowGet rowIsl "is_populated" ∧
    rowGet (nzIsl.normalize_island rowIsl 2).corrected "is_outermost_small" =
      rowGet rowIsl "is_outermost_small" ∧
    (({ code := "11.01.40001", name := "PULA", regency_code := "11.01",
        coordinate := "", is_populated := "1",
        is_outermost_small := "0" } : IslandRecord).coordinate = "" →
      rowGet (nzIsl.normalize_island rowIsl 2).corrected "coordinate" =
        rowGet rowIsl "coordinate") :=
  claim_C10_island_frame nzIsl rowIsl 2
    { code := "11.01.40001", name := "PULA", regency_code := "11.01",
      coordinate := "", is_populated := "1", is_outermost_small := "0" }
    (by with_unfolding_all decide)

/-! ### Validator error characterizations (claims C4, C6, C7) -/

theorem mem_validateNotEmpty {e : ValidationError} {v : String} {rn : Nat}
    {c : String} (h : e ∈ validateNotEmpty v rn c) :
    e.error_type = "empty_value" ∧ e.column = c := by
  unfold validateNotEmpty at h
  split at h
  · rw [List.mem_singleton] at h
    subst h
    exact ⟨rfl, rfl⟩
  · simp at h

theorem mem_validateCodeLength {e : ValidationError} {code : String} {n rn : Nat}
    (h : e ∈ validateCodeLength code n rn) :
    e.error_type = "invalid_code_length" ∧ e.column = "code" := by
  unfold validateCodeLength at h
  split at h
  · rw [List.mem_singleton] at h
    subst h
    exact ⟨rfl, rfl⟩
  · simp at h

theorem mem_validateCodeNumeric {e : ValidationError} {code : String} {rn : Nat}
    (h : e ∈ validateCodeNumeric code rn) :
    e.error_type = "invalid_code_format" ∧ e.column = "code" := by
  unfold validateCodeNumeric at h
  split at h
  · rw [List.mem_singleton] at h
    subst h
    exact ⟨rfl, rfl⟩
  · simp at h

theorem mem_validateCodePattern {e : ValidationError} {code : String}
    {pat : String → Bool} {fmt : String} {rn : Nat} {col : String}
    (h : e ∈ validateCodePattern code pat fmt rn col) :
    e.error_type = "invalid_code_format" ∧ e.column = col ∧ pat code = false := by
  unfold validateCodePattern at h
  split at h
  · rename_i hpat
    rw [List.mem_singleton] at h
    subst h
    exact ⟨rfl, rfl, by simpa using hpat⟩
  · simp at h

theorem mem_validateParentCodePref {e : ValidationError} {code pc : String}
    {n rn : Nat} {col : String} (h : e ∈ validateParentCodePref code pc n rn col) :
    e.error_type = "invalid_parent_code" ∧ e.column = col := by
  simp only [validateParentCodePref] at h
  split at h
  · rw [List.mem_singleton] at h
    subst h
    exact ⟨rfl, rfl⟩
  · simp at h

theorem mem_validateBoolean {e : ValidationError} {v : String} {rn : Nat}
    {c : String} (h : e ∈ validateBoolean v rn c) :
    e.error_type = "invalid_boolean" ∧ e.column = c := by
  unfold validateBoolean at h
  split at h
  · rw [List.mem_singleton] at h
    subst h
    exact ⟨rfl, rfl⟩
  · simp at h

theorem provinceValidateRow_types {row : Row} {rn : Nat} {e : ValidationError}
    (h : e ∈ provinceValidateRow row rn) :
    e.error_type = "empty_value" ∨ e.error_type = "invalid_code_length" ∨
      e.error_type = "invalid_code_format" := by
  unfold provinceValidateRow at h
  simp only [List.mem_append] at h
  rcases h with h | h
  · split at h
    · exact Or.inl (mem_validateNotEmpty h).1
    · simp only [List.mem_append] at h
      rcases h with h | h
      · exact Or.inr (Or.inl (mem_validateCodeLength h).1)
      · exact Or.inr (Or.inr (mem_validateCodeNumeric h).1)
  · exact Or.inl (mem_validateNotEmpty h).1

theorem regencyValidateRow_types {row : Row} {rn : Nat} {e : ValidationError}
    (h : e ∈ regencyValidateRow row rn) :
    e.error_type = "empty_value" ∨ e.error_type = "invalid_code_format" ∨
      e.error_type = "invalid_parent_code" := by
  unfold regencyValidateRow at h
  simp only [List.mem_append] at h
  rcases h with (h | h) | h
  · split at h
    · exact Or.inl (mem_validateNotEmpty h).1
    · exact Or.inr (Or.inl (mem_validateCodePattern h).1)
  · split at h
    · exact Or.inl (mem_validateNotEmpty h).1
    · split at h
      · exact Or.inr (Or.inl (mem_validateCodePattern h).1)
      · split at h
        · exact Or.inr (Or.inr (mem_validateParentCodePref h).1)
        · simp at h
  · exact Or.inl (mem_validateNotEmpty h).1

theorem districtValidateRow_types {row : Row} {rn : Nat} {e : ValidationError}
    (h : e ∈ districtValidateRow row rn) :
    e.error_type = "empty_value" ∨ e.error_type = "invalid_code_format" ∨
      e.error_type = "invalid_parent_code" := by
  unfold districtValidateRow at h
  simp only [List.mem_append] at h
  rcases h with (h | h) | h
  · split at h
    · exact Or.inl (mem_validateNotEmpty h).1
    · exact Or.inr (Or.inl (mem_validateCodePattern h).1)
  · split at h
    · exact Or.inl (mem_validateNotEmpty h).1
    · split at h
      · exact Or.inr (Or.inl (mem_validateCodePattern h).1)
      · split at h
        · exact Or.inr (Or.inr (mem_validateParentCodePref h).1)
        · simp at h
  · exact Or.inl (mem_validateNotEmpty h).1

theorem villageValidateRow_types {row : Row} {rn : Nat} {e : ValidationError}
    (h : e ∈ villageValidateRow row rn) :
    e.error_type = "empty_value" ∨ e.error_type = "invalid_code_format" ∨
      e.error_type = "invalid_parent_code" := by
  unfold villageValidateRow at h
  simp only [List.mem_append] at h
  rcases h with (h | h) | h
  · split at h
    · exact Or.inl (mem_validateNotEmpty h).1
    · exact Or.inr (Or.inl (mem_validateCodePattern h).1)
  · split at h
    · exact Or.inl (mem_validateNotEmpty h).1
    · split at h
      · exact Or.inr (Or.inl (mem_validateCodePattern h).1)
      · split at h
        · exact Or.inr (Or.inr (mem_validateParentCodePref h).1)
        · simp at h
  · exact Or.inl (mem_validateNotEmpty h).1

/-- The full (column, error kind) characterization of the island
validator: no parent-prefix check exists, a regency_code error appears
only when regency_code is non-empty, and a code-format error only when
the island pattern fails. -/
theorem islandValidateRow_types {row : Row} {rn : Nat} {e : ValidationError}
    (h : e ∈ islandValidateRow row rn) :
    (e.column = "code" ∧ (e.error_type = "empty_value" ∨
      (e.error_type = "invalid_code_format" ∧
        reIslandCode (rowGet row "code") = false))) ∨
    (e.column = "regency_code" ∧ e.error_type = "invalid_code_format" ∧
      rowGet row "regency_code" ≠ "") ∨
    (e.column = "coordinate" ∧ (e.error_type = "empty_value" ∨
      e.error_type = "invalid_coordinate")) ∨
    (e.column = "is_populated" ∧ e.error_type = "invalid_boolean") ∨
    (e.column = "is_outermost_small" ∧ e.error_type = "invalid_boolean") ∨
    (e.column = "name" ∧ e.error_type = "empty_value") := by
  unfold islandValidateRow at h
  simp only [List.mem_append] at h
  rcases h with ((((h | h) | h) | h) | h) | h
  · split at h
    · exact Or.inl ⟨(mem_validateNotEmpty h).2, Or.inl (mem_validateNotEmpty h).1⟩
    · split at h
      · rename_i hfmt
        rw [List.mem_singleton] at h
        subst h
        exact Or.inl ⟨rfl, Or.inr ⟨rfl, by simpa using hfmt⟩⟩
      · simp at h
  · split at h
    · rename_i hrc
      obtain ⟨h1, h2, _⟩ := mem_validateCodePattern h
      exact Or.inr (Or.inl ⟨h2, h1, hrc⟩)
    · simp at h
  · split at h
    · obtain ⟨h1, h2⟩ := mem_validateNotEmpty h
      exact Or.inr (Or.inr (Or.inl ⟨h2, Or.inl h1⟩))
    · split at h
      · rw [List.mem_singleton] at h
        subst h
        exact Or.inr (Or.inr (Or.inl ⟨rfl, Or.inr rfl⟩))
      · simp at h
  · obtain ⟨h1, h2⟩ := mem_validateBoolean h
    exact Or.inr (Or.inr (Or.inr (Or.inl ⟨h2, h1⟩)))
  · obtain ⟨h1, h2⟩ := mem_validateBoolean h
    exact Or.inr (Or.inr (Or.inr (Or.inr (Or.inl ⟨h2, h1⟩))))
  · obtain ⟨h1, h2⟩ := mem_validateNotEmpty h
    exact Or.inr (Or.inr (Or.inr (Or.inr (Or.inr ⟨h2, h1⟩))))

/-! ### Claim C4: island parent handling -/

/-- C4 counterexample: the island validator emits no invalid_parent_code
even when regency_code 22.02 contradicts the code prefix 11.01, and an
empty regency_code is tolerated although the code's middle segment is 01,
not 00 — refuting both the claimed parent-prefix check and the claimed
"exactly when the middle segment is 00" tolerance. -/
theorem claim_C4_counterexample :
    (∀ e ∈ islandValidateRow rowIslMismatch 2, e.error_type ≠ "invalid_parent_code") ∧
    (∀ e ∈ islandValidateRow rowIslEmptyRC 2, e.column ≠ "regency_code") := by
  with_unfolding_all decide

/-- C4 (amended): the island validator never performs a parent-prefix
check — no invalid_parent_code is ever emitted; an empty regency_code is
tolerated for every island code (not only middle segment 00); and the
Scenario E row (regency_code empty, code 12.00.40001) yields no
invalid_parent_code and no invalid_code_format error. -/
theorem claim_C4_amended (row : Row) (rn : Nat) :
    (∀ e ∈ islandValidateRow row rn, e.error_type ≠ "invalid_parent_code") ∧
    (rowGet row "regency_code" = "" →
      ∀ e ∈ islandValidateRow row rn, e.column ≠ "regency_code") ∧
    (rowGet row "regency_code" = "" → rowGet row "code" = "12.00.40001" →
      ∀ e ∈ islandValidateRow row rn,
        e.error_type ≠ "invalid_parent_code" ∧ e.error_type ≠ "invalid_code_format") := by
  refine ⟨fun e he => ?_, fun hrc e he => ?_, fun hrc hcode e he => ⟨?_, ?_⟩⟩
  · rcases islandValidateRow_types he with ⟨_, h | ⟨h, _⟩⟩ | ⟨_, h, _⟩ |
      ⟨_, h | h⟩ | ⟨_, h⟩ | ⟨_, h⟩ | ⟨_, h⟩ <;> rw [h] <;> decide
  · rcases islandValidateRow_types he with ⟨h, _⟩ | ⟨h, _, hne⟩ |
      ⟨h, _⟩ | ⟨h, _⟩ | ⟨h, _⟩ | ⟨h, _⟩
    · rw [h]; decide
    · exact absurd hrc hne
    · rw [h]; decide
    · rw [h]; decide
    · rw [h]; decide
    · rw [h]; decide
  · rcases islandValidateRow_types he with ⟨_, h | ⟨h, _⟩⟩ | ⟨_, h, _⟩ |
      ⟨_, h | h⟩ | ⟨_, h⟩ | ⟨_, h⟩ | ⟨_, h⟩ <;> rw [h] <;> decide
  · rcases islandValidateRow_types he with ⟨_, h | ⟨h, hpat⟩⟩ | ⟨_, _, hne⟩ |
      ⟨_, h | h⟩ | ⟨_, h⟩ | ⟨_, h⟩ | ⟨_, h⟩
    · rw [h]; decide
    · rw [hcode] at hpat
      exact absurd hpat (by decide)
    · exact absurd hrc hne
    · rw [h]; decide
    · rw [h]; decide
    · rw [h]; decide
    · rw [h]; decide
    · rw [h]; decide

/-- C4 witness: Scenario E concrete row through the amended theorem. -/
theorem claim_C4_witness :
    ∀ e ∈ islandValidateRow rowIslScenE 2,
      e.error_type ≠ "invalid_parent_code" ∧ e.error_type ≠ "invalid_code_format" :=
  (claim_C4_amended rowIslScenE 2).2.2 (by with_unfolding_all decide)
    (by with_unfolding_all decide)

/-! ### Claim C6: province code-shape error kinds -/

/-- C6 counterexample: the province code "ab" is non-empty and is not a
run of exactly two digits, yet no invalid_code_length error is produced —
the validator reports invalid_code_format instead (invalid_code_length
fires only on a wrong length). -/
theorem claim_C6_counterexample :
    (∀ e ∈ provinceValidateRow [("code", "ab"), ("name", "X")] 2,
      e.error_type ≠ "invalid_code_length") ∧
    (∃ e ∈ provinceValidateRow [("code", "ab"), ("name", "X")] 2,
      e.error_type = "invalid_code_format") := by
  with_unfolding_all decide

/-- C6 (amended): for a province row with a non-empty code, an
invalid_code_length error is reported exactly when the code's length is
not 2, a non-numeric code is reported with invalid_code_format, and
invalid_code_length is emitted by no validator other than the province
one. -/
theorem claim_C6_amended :
    (∀ row rn, pyStrip (rowGet row "code") ≠ "" →
      ((∃ e ∈ provinceValidateRow row rn, e.error_type = "invalid_code_length") ↔
        (rowGet row "code").data.length ≠ 2)) ∧
    (∀ row rn, pyStrip (rowGet row "code") ≠ "" →
      pyIsdigit (rowGet row "code") = false →
      ∃ e ∈ provinceValidateRow row rn, e.error_type = "invalid_code_format") ∧
    (∀ area, area ≠ Area.province → ∀ row rn, ∀ e ∈ validateRow area row rn,
      e.error_type ≠ "invalid_code_length") := by
  refine ⟨fun row rn hne => ⟨fun hex => ?_, fun hlen => ?_⟩,
    fun row rn hne hdig => ?_, fun area hap row rn e he => ?_⟩
  · obtain ⟨e, he, het⟩ := hex
    simp only [provinceValidateRow] at he
    rw [if_neg hne] at he
    simp only [List.mem_append] at he
    rcases he with (he | he) | he
    · unfold validateCodeLength at he
      split at he
      · assumption
      · simp at he
    · rw [(mem_validateCodeNumeric he).1] at het
      exact absurd het (by decide)
    · rw [(mem_validateNotEmpty he).1] at het
      exact absurd het (by decide)
  · refine ⟨{ row_number := rn, column := "code", value := rowGet row "code"
              error_type := "invalid_code_length"
              message := "Code must be exactly " ++ toString 2 ++ " digits, got " ++
                toString (rowGet row "code").data.length }, ?_, rfl⟩
    simp only [provinceValidateRow]
    rw [if_neg hne]
    simp only [List.mem_append]
    refine Or.inl (Or.inl ?_)
    unfold validateCodeLength
    rw [if_pos hlen]
    exact List.mem_singleton.mpr rfl
  · refine ⟨{ row_number := rn, column := "code", value := rowGet row "code"
              error_type := "invalid_code_format"
              message := "Code must be numeric, got " ++ rowGet row "code" }, ?_, rfl⟩
    simp only [provinceValidateRow]
    rw [if_neg hne]
    simp only [List.mem_append]
    refine Or.inl (Or.inr ?_)
    unfold validateCodeNumeric
    rw [if_pos (by simp [hdig])]
    exact List.mem_singleton.mpr rfl
  · cases area with
    | province => exact absurd rfl hap
    | regency =>
      rcases regencyValidateRow_types he with h | h | h <;> rw [h] <;> decide
    | district =>
      rcases districtValidateRow_types he with h | h | h <;> rw [h] <;> decide
    | village =>
      rcases villageValidateRow_types he with h | h | h <;> rw [h] <;> decide
    | island =>
      rcases islandValidateRow_types he with ⟨_, h | ⟨h, _⟩⟩ | ⟨_, h, _⟩ |
        ⟨_, h | h⟩ | ⟨_, h⟩ | ⟨_, h⟩ | ⟨_, h⟩ <;> rw [h] <;> decide

/-- C6 witness: the three-digit code 123 is reported with
invalid_code_length. -/
theorem claim_C6_witness :
    (∃ e ∈ provinceValidateRow [("code", "123"), ("name", "A")] 2,
      e.error_type = "invalid_code_length") ↔
    (rowGet [("code", "123"), ("name", "A")] "code").data.length ≠ 2 :=
  claim_C6_amended.1 [("code", "123"), ("name", "A")] 2 (by with_unfolding_all decide)

/-! ### Claim C7: header gate of validate_csv -/

theorem validateRow_no_invalid_headers (area : Area) (row : Row) (rn : Nat)
    (e : ValidationError) (he : e ∈ validateRow area row rn) :
    e.error_type ≠ "invalid_headers" := by
  cases area with
  | province =>
    rcases provinceValidateRow_types he with h | h | h <;> rw [h] <;> decide
  | regency =>
    rcases regencyValidateRow_types he with h | h | h <;> rw [h] <;> decide
  | district =>
    rcases districtValidateRow_types he with h | h | h <;> rw [h] <;> decide
  | village =>
    rcases villageValidateRow_types he with h | h | h <;> rw [h] <;> decide
  | island =>
    rcases islandValidateRow_types he with ⟨_, h | ⟨h, _⟩⟩ | ⟨_, h, _⟩ |
      ⟨_, h | h⟩ | ⟨_, h⟩ | ⟨_, h⟩ | ⟨_, h⟩ <;> rw [h] <;> decide

/-- C7: for every CSV validation run with a truthy header row, a header
row differing from the area's expected sequence yields a report whose
only error is a single invalid_headers error with row_number 0 and whose
total_rows is 0 (no per-row validation); a matching header row yields no
invalid_headers error. -/
theorem claim_C7_header_gate (area : Area) (headers : List String)
    (rows : List Row) (hne : headers ≠ []) :
    (headers ≠ expectedHeaders area →
      (validate_csv_final area headers rows).errors.length = 1 ∧
      (∀ e ∈ (validate_csv_final area headers rows).errors,
        e.error_type = "invalid_headers" ∧ e.row_number = 0) ∧
      (validate_csv_final area headers rows).total_rows = 0) ∧
    (headers = expectedHeaders area →
      ∀ e ∈ (validate_csv_final area headers rows).errors,
        e.error_type ≠ "invalid_headers") := by
  constructor
  · intro hmis
    unfold validate_csv_final
    rw [if_pos ⟨hne, hmis⟩]
    unfold validate_headers
    rw [if_pos hmis]
    refine ⟨rfl, ?_, rfl⟩
    intro e he
    rw [List.mem_singleton] at he
    subst he
    exact ⟨rfl, rfl⟩
  · intro heq e he
    unfold validate_csv_final at he
    rw [if_neg (by intro hc; exact hc.2 heq)] at he
    simp only [List.mem_flatten, List.mem_map] at he
    obtain ⟨es, ⟨p, _, hp⟩, hes⟩ := he
    rw [← hp] at hes
    exact validateRow_no_invalid_headers area p.2 (p.1 + 2) e hes

/-- C7 witness: a province file whose headers are code,nam gets exactly
the single header error and no row validation. -/
theorem claim_C7_witness :
    (validate_csv_final .province ["code", "nam"] [[("code", "11")]]).errors.length = 1 ∧
    (∀ e ∈ (validate_csv_final .province ["code", "nam"] [[("code", "11")]]).errors,
      e.error_type = "invalid_headers" ∧ e.row_number = 0) ∧
    (validate_csv_final .province ["code", "nam"] [[("code", "11")]]).total_rows = 0 :=
  (claim_C7_header_gate .province ["code", "nam"] [[("code", "11")]]
    (by decide)).1 (by decide)

/-! ### Claim C1: scoping and fallback of the fuzzy-name search -/

/-- C1 counterexample: the regency MEDAN exists in the full index, the
scoped search under the row's declared parent 11 (whose only child is
BANDAX) yields no candidates — and the engine concludes not_found without
falling back to the full index, contradicting the claimed fallback on an
empty scoped result. -/
theorem claim_C1_counterexample :
    gtScope.search_name_in_context "MEDAN" .regency (some "11") 3 80 = [] ∧
    gtScope.search_name_in_context "MEDAN" .regency none 3 80 ≠ [] ∧
    (nzScope.normalize_regency rowScope 2).status = .not_found := by
  with_unfolding_all decide

/-- C1 (amended): the fuzzy-name fallback searches with the row\'s name as
query, n = 3 and the confidence threshold as cutoff, scoped to the
children of the declared parent code. For every area type, a missing or
empty parent code sends the search to the full index; a truthy parent
falls back to the full index only when it has no indexed children of
that area type (provinces have no hierarchy map, so a truthy parent
always searches the full province index; islands with a truthy parent
never fall back, even childless); and for every area type a scoped
search yielding no candidates makes the engine conclude not_found with
no suggestions, without consulting the full index. -/
theorem claim_C1_amended :
    (∀ (gt : GroundTruthIndex) (name : String) (area : Area) (n : Nat) (t : Rat),
      gt.search_name_in_context name area none n t =
        gt.full_index_search name area n t) ∧
    (∀ (gt : GroundTruthIndex) (name : String) (area : Area) (n : Nat) (t : Rat),
      gt.search_name_in_context name area (some "") n t =
        gt.full_index_search name area n t) ∧
    (∀ (gt : GroundTruthIndex) (name pc : String) (n : Nat) (t : Rat), pc ≠ "" →
      gt.search_name_in_context name .province (some pc) n t =
        gt.full_index_search name .province n t) ∧
    (∀ (gt : GroundTruthIndex) (name pc : String) (n : Nat) (t : Rat), pc ≠ "" →
      dictGetList gt.regencies_by_province pc = [] →
      gt.search_name_in_context name .regency (some pc) n t =
        gt.regencies.search_by_name name n t) ∧
    (∀ (gt : GroundTruthIndex) (name pc : String) (n : Nat) (t : Rat), pc ≠ "" →
      dictGetList gt.districts_by_regency pc = [] →
      gt.search_name_in_context name .district (some pc) n t =
        gt.districts.search_by_name name n t) ∧
    (∀ (gt : GroundTruthIndex) (name pc : String) (n : Nat) (t : Rat), pc ≠ "" →
      dictGetList gt.villages_by_district pc = [] →
      gt.search_name_in_context name .village (some pc) n t =
        gt.villages.search_by_name name n t) ∧
    (∀ (gt : GroundTruthIndex) (name pc : String) (n : Nat) (t : Rat)
        (rs : List AreaRecord), pc ≠ "" →
      dictGetList gt.regencies_by_province pc = rs → rs ≠ [] →
      gt.search_name_in_context name .regency (some pc) n t =
        fuzzy_search_top_n name (rs.map AreaRecord.name) n t
          (some (rs.map AreaRecord.code))) ∧
    (∀ (gt : GroundTruthIndex) (name pc : String) (n : Nat) (t : Rat)
        (rs : List AreaRecord), pc ≠ "" →
      dictGetList gt.districts_by_regency pc = rs → rs ≠ [] →
      gt.search_name_in_context name .district (some pc) n t =
        fuzzy_search_top_n name (rs.map AreaRecord.name) n t
          (some (rs.map AreaRecord.code))) ∧
    (∀ (gt : GroundTruthIndex) (name pc : String) (n : Nat) (t : Rat)
        (rs : List AreaRecord), pc ≠ "" →
      dictGetList gt.villages_by_district pc = rs → rs ≠ [] →
      gt.search_name_in_context name .village (some pc) n t =
        fuzzy_search_top_n name (rs.map AreaRecord.name) n t
          (some (rs.map AreaRecord.code))) ∧
    (∀ (gt : GroundTruthIndex) (name pc : String) (n : Nat) (t : Rat), pc ≠ "" →
      gt.search_name_in_context name .island (some pc) n t =
        fuzzy_search_top_n name
          ((dictGetList gt.islands_by_regency pc).map IslandRecord.name) n t
          (some ((dictGetList gt.islands_by_regency pc).map IslandRecord.code))) ∧
    (∀ (nz : Normalizer) (area : Area) (row : Row) (rn : Nat),
      nz.ground_truth.code_absent area (rowGet row "code") →
      nz.ground_truth.search_name_in_context (rowGet row "name") area
        (parentArgOf area row) 3 nz.confidence_threshold = [] →
      (nz.normalize_row row rn area).status = .not_found ∧
      (nz.normalize_row row rn area).suggestions = []) := by
  refine ⟨fun gt name area n t => ?_, fun gt name area n t => ?_,
    fun gt name pc n t hpc => ?_,
    fun gt name pc n t hpc hch => ?_, fun gt name pc n t hpc hch => ?_,
    fun gt name pc n t hpc hch => ?_,
    fun gt name pc n t rs hpc hch hne => ?_, fun gt name pc n t rs hpc hch hne => ?_,
    fun gt name pc n t rs hpc hch hne => ?_,
    fun gt name pc n t hpc => ?_, fun nz area row rn hca hms => ?_⟩
  · simp [GroundTruthIndex.search_name_in_context]
  · simp [GroundTruthIndex.search_name_in_context]
  · simp [GroundTruthIndex.search_name_in_context, hpc]
  · simp only [GroundTruthIndex.search_name_in_context,
      GroundTruthIndex.get_regencies_for_province, Option.getD_some, hpc,
      if_neg, hch, GroundTruthIndex.full_index_search]
    simp
  · simp only [GroundTruthIndex.search_name_in_context,
      GroundTruthIndex.get_districts_for_regency, Option.getD_some, hpc,
      if_neg, hch, GroundTruthIndex.full_index_search]
    simp
  · simp only [GroundTruthIndex.search_name_in_context,
      GroundTruthIndex.get_villages_for_district, Option.getD_some, hpc,
      if_neg, hch, GroundTruthIndex.full_index_search]
    simp
  · simp only [GroundTruthIndex.search_name_in_context,
      GroundTruthIndex.get_regencies_for_province, Option.getD_some, hpc,
      if_neg, hch]
    simp [hne]
  · simp only [GroundTruthIndex.search_name_in_context,
      GroundTruthIndex.get_districts_for_regency, Option.getD_some, hpc,
      if_neg, hch]
    simp [hne]
  · simp only [GroundTruthIndex.search_name_in_context,
      GroundTruthIndex.get_villages_for_district, Option.getD_some, hpc,
      if_neg, hch]
    simp [hne]
  · simp only [GroundTruthIndex.search_name_in_context,
      GroundTruthIndex.get_islands_for_regency, Option.getD_some, hpc, if_neg]
    simp [hpc]
  · cases area with
    | province =>
      simp only [GroundTruthIndex.code_absent] at hca
      simp only [parentArgOf] at hms
      simp only [Normalizer.normalize_row, Normalizer.normalize_province, hca]
      simp only [Normalizer.normalize_by_name, hms]
      exact ⟨rfl, rfl⟩
    | regency =>
      simp only [GroundTruthIndex.code_absent] at hca
      simp only [parentArgOf] at hms
      simp only [Normalizer.normalize_row, Normalizer.normalize_regency, hca]
      simp only [Normalizer.normalize_by_name, hms]
      exact ⟨rfl, rfl⟩
    | district =>
      simp only [GroundTruthIndex.code_absent] at hca
      simp only [parentArgOf] at hms
      simp only [Normalizer.normalize_row, Normalizer.normalize_district, hca]
      simp only [Normalizer.normalize_by_name, hms]
      exact ⟨rfl, rfl⟩
    | village =>
      simp only [GroundTruthIndex.code_absent] at hca
      simp only [parentArgOf] at hms
      simp only [Normalizer.normalize_row, Normalizer.normalize_village, hca]
      simp only [Normalizer.normalize_by_name, hms]
      exact ⟨rfl, rfl⟩
    | island =>
      simp only [GroundTruthIndex.code_absent] at hca
      simp only [parentArgOf] at hms
      simp only [Normalizer.normalize_row, Normalizer.normalize_island, hca]
      simp only [Normalizer.normalize_island_by_name, hms]
      exact ⟨trivial, trivial⟩

/-- C1 witness: the counterexample data through the engine-level clause of
the amended theorem (regency row, scoped search empty, not_found with no
suggestions and no fallback). -/
theorem claim_C1_witness :
    (nzScope.normalize_row rowScope 2 .regency).status = .not_found ∧
    (nzScope.normalize_row rowScope 2 .regency).suggestions = [] :=
  claim_C1_amended.2.2.2.2.2.2.2.2.2.2 nzScope .regency rowScope 2
    (by show nzScope.ground_truth.regencies.get_by_code (rowGet rowScope "code") = none
        with_unfolding_all decide)
    (by with_unfolding_all decide)

/-! ### Claim C5: fatality of reference-directory problems -/

/-- C5 counterexample: index construction over a directory containing an
unreadable reference file succeeds (no error is raised) and silently
produces the partial index holding only the one readable province —
refuting the claim that unreadable or unparseable files abort index
construction. -/
theorem claim_C5_counterexample :
    ((GroundTruthIndex.empty.load_from_directory dirWithUnreadable).toOption.map
      (fun g => g.provinces.length)) = some 1 := by
  with_unfolding_all decide

/-- C5 (amended): a missing reference-data directory aborts index
construction with a descriptive error, but an unreadable or unparseable
reference file does not: header detection returns nothing for it, the
file is silently skipped (contributing no records), and construction
succeeds on whatever else the directory holds. -/
theorem claim_C5_amended (gt : GroundTruthIndex) (d : Directory) :
    (d.isDir = false →
      gt.load_from_directory d =
        Except.error ("Directory does not exist: " ++ d.path)) ∧
    (d.isDir = true → ∃ g2, gt.load_from_directory d = Except.ok g2) ∧
    (∀ g : GroundTruthIndex, loadFile g FileContent.unreadable = g) ∧
    detect_area_type_from_headers FileContent.unreadable = none := by
  refine ⟨fun h => ?_, fun h => ⟨d.files.foldl loadFile gt, ?_⟩, fun g => rfl, rfl⟩
  · unfold GroundTruthIndex.load_from_directory
    rw [h]
    simp
  · unfold GroundTruthIndex.load_from_directory
    rw [h]
    simp

/-- C5 witness: a missing directory errors with the descriptive message. -/
theorem claim_C5_witness :
    GroundTruthIndex.empty.load_from_directory
      { isDir := false, path := "refs", files := [] } =
      Except.error ("Directory does not exist: " ++ "refs") :=
  (claim_C5_amended GroundTruthIndex.empty
    { isDir := false, path := "refs", files := [] }).1 rfl

end IdnAreaEtl
